import Mathlib

/-!
Shallow embedding of the netaoffice backend (escrow ledger, release policy,
expiry sweeper, rating engine) and proofs about it.

Conventions:
* Python `int` fields become `ℤ` (amounts, balances) or `String` (ids).
* Timestamps are modelled as integer seconds; `datetime.now(...)` becomes an
  explicit `now : ℤ` parameter and `timedelta(days=14)` becomes `14 * 86400`.
* Supabase `.single()` queries become `(list.filter ...).head?`; `.eq` filters
  become `List.filter`; row updates `.update(...).eq("id", x)` become
  `List.map` guarded by the id.
* Python `float` values that only take part in exact arithmetic (directness
  scores, vote fractions, leaderboard mu/sigma comparisons) are modelled as
  `ℚ`; the rating-engine floats, which flow through `math.log10`, are
  modelled as `ℝ` with `Real.logb 10`.
* The `openskill` pairwise model called in `update_rating_on_answer` is an
  external library, not part of this repository; its output `(mu, sigma)` is
  passed in as explicit parameters `rate_mu rate_sigma`.
-/

/-- Status of an escrow entry, serialized as held/released/refunded
(`app/models/escrow.py`, `EscrowStatus`). -/
inductive EscrowStatus where
  | held
  | released
  | refunded
deriving DecidableEq

/-- Question lifecycle status (`app/models/question.py`, `QuestionStatus`);
the source's "open" literal is spelled `opened` because `open` is a Lean
keyword. -/
inductive QuestionStatus where
  | opened
  | answered
  | expired
  | flagged
deriving DecidableEq

/-- One escrow row (`app/models/escrow.py`, `EscrowTransaction`). -/
structure EscrowEntry where
  id : String
  citizen_id : String
  question_id : String
  amount : ℤ
  status : EscrowStatus
  charity_id : Option String
  released_at : Option ℤ
  created_at : ℤ
deriving DecidableEq

/-- A profile row restricted to the fields the escrow code touches
(`profiles` table: id, role, civic_points). -/
structure Profile where
  id : String
  role : String
  civic_points : ℤ
deriving DecidableEq

/-- The stored `ai_analysis` JSON dict on an answer row.  The key
`directness_score` may in principle be absent from the stored dict, which
`check_and_release_escrow` defends against with `.get("directness_score", 0)`;
hence `Option ℚ`. -/
structure StoredAI where
  directness_score : Option ℚ
deriving DecidableEq

/-- An answer row (`app/models/answer.py`, `Answer`), restricted to the fields
the escrow/rating code reads. -/
structure Answer where
  id : String
  question_id : String
  politician_id : String
  content : String
  ai_analysis : Option StoredAI
  created_at : ℤ
deriving DecidableEq

/-- A vote row (`app/models/answer.py`, `Vote`). -/
structure Vote where
  answer_id : String
  citizen_id : String
  is_helpful : Bool
deriving DecidableEq

/-- A question row (`app/models/question.py`, `Question`). -/
structure Question where
  id : String
  title : String
  body : String
  citizen_id : String
  target_politician_id : String
  total_bounty : ℤ
  status : QuestionStatus
  ai_directness_score : Option ℚ
  created_at : ℤ
  deadline : ℤ
deriving DecidableEq

/-- The persistent store as seen by the escrow/release/sweep code: the five
tables it reads and writes. -/
structure State where
  profiles : List Profile
  questions : List Question
  answers : List Answer
  votes : List Vote
  escrows : List EscrowEntry
deriving DecidableEq

/-- Payload of `POST /questions` (`app/models/question.py`, `QuestionCreate`);
`initial_stake : int = 0` carries no positivity validator. -/
structure QuestionCreate where
  title : String
  body : String
  target_politician_id : String
  initial_stake : ℤ
deriving DecidableEq

/-- First row of `questions` matching an id — models
`.eq("id", qid).single()`. -/
def firstQuestion (s : State) (qid : String) : Option Question :=
  (s.questions.filter (fun q => q.id == qid)).head?

/-- First row of `profiles` matching an id — models
`.eq("id", pid).single()`. -/
def firstProfile (s : State) (pid : String) : Option Profile :=
  (s.profiles.filter (fun p => p.id == pid)).head?

/-- First row of `answers` matching a question id — models
`.eq("question_id", qid).single()`. -/
def firstAnswer (s : State) (qid : String) : Option Answer :=
  (s.answers.filter (fun a => a.question_id == qid)).head?

/-- AI branch of the release check (`escrow.py` lines 29-34): passes when the
stored analysis dict is present and its `directness_score` (defaulting to 0
when the key is absent) is at least 70. -/
def aiPassesB (ai : Option StoredAI) : Bool :=
  match ai with
  | some d => decide (70 ≤ d.directness_score.getD 0)
  | none => false

/-- Vote branch of the release check (`escrow.py` lines 37-44): at least one
vote and a helpful fraction strictly above one half. -/
def votesPassB (vs : List Vote) : Bool :=
  if 1 ≤ vs.length then
    decide ((1 : ℚ) / 2 < ((vs.filter (fun v => v.is_helpful)).length : ℚ) / (vs.length : ℚ))
  else false

/-- Releases all held escrow of a question to charity
(`escrow.py`, `release_escrow`): snapshots the held rows, returns `false`
unchanged when there are none, otherwise stamps every snapshotted row (by id)
released with the charity sink and release time. -/
def release_escrow (s : State) (question_id : String) (charity_id : Option String)
    (now : ℤ) : Bool × State :=
  let escrows := s.escrows.filter
    (fun e => e.question_id == question_id && e.status == EscrowStatus.held)
  if escrows.isEmpty then (false, s)
  else
    let ids := escrows.map (fun e => e.id)
    (true, { s with escrows := s.escrows.map (fun e =>
        if ids.contains e.id then
          { e with status := EscrowStatus.released
                 , charity_id := some (charity_id.getD "default_charity")
                 , released_at := some now }
        else e) })

/-- Release evaluation (`escrow.py`, `check_and_release_escrow`): looks up the
question's answer, computes the AI and vote conditions, and routes to
`release_escrow` exactly when either holds. -/
def check_and_release_escrow (s : State) (question_id : String) (now : ℤ) :
    Bool × State :=
  match firstAnswer s question_id with
  | none => (false, s)
  | some ans =>
    let ai_passes := aiPassesB ans.ai_analysis
    let vs := s.votes.filter (fun v => v.answer_id == ans.id)
    let votes_pass := votesPassB vs
    if ai_passes || votes_pass then release_escrow s question_id none now
    else (false, s)

/-- Refund of a single held escrow row during the expiry sweep
(`escrow.py` lines 104-124): fetch the staking citizen's profile, credit the
amount back, and mark the row refunded.  The source's `.single()` presumes the
profile row exists (enforced by a foreign key); the unreachable missing-row
case, where the source query would raise, is modelled as a no-op and excluded
by a hypothesis in the theorems. -/
def refundOne (s : State) (e : EscrowEntry) (now : ℤ) : State :=
  match firstProfile s e.citizen_id with
  | none => s
  | some p =>
    { s with
      profiles := s.profiles.map (fun r =>
        if r.id == e.citizen_id then { r with civic_points := p.civic_points + e.amount }
        else r)
      , escrows := s.escrows.map (fun r =>
        if r.id == e.id then
          { r with status := EscrowStatus.refunded, released_at := some now }
        else r) }

/-- Sequential refund of a snapshot of escrow rows (the inner `for escrow in
escrows.data` loop of `refund_expired_escrows`). -/
def refundList (s : State) (es : List EscrowEntry) (now : ℤ) : State :=
  es.foldl (fun acc e => refundOne acc e now) s

/-- Marks every question row with the given id `expired`
(`escrow.py` lines 131-134). -/
def markExpired (s : State) (qid : String) : State :=
  { s with questions := s.questions.map (fun q =>
      if q.id == qid then { q with status := QuestionStatus.expired } else q) }

/-- One iteration of the sweep's outer loop (`escrow.py` lines 94-134): skip
when the question has an answer, otherwise refund every held row for it and
mark it expired, reporting how many rows were refunded. -/
def sweepQuestion (s : State) (qid : String) (now : ℤ) : State × ℕ :=
  if (s.answers.filter (fun a => a.question_id == qid)).isEmpty then
    let held := s.escrows.filter
      (fun e => e.question_id == qid && e.status == EscrowStatus.held)
    (markExpired (refundList s held now) qid, held.length)
  else (s, 0)

/-- The sweep's outer loop over the snapshot of expired question ids. -/
def sweepLoop (s : State) (now : ℤ) : List String → State × ℕ
  | [] => (s, 0)
  | qid :: rest =>
    let step := sweepQuestion s qid now
    let next := sweepLoop step.1 now rest
    (next.1, step.2 + next.2)

/-- Background refund sweep (`escrow.py`, `refund_expired_escrows`): selects
the ids of the still-open questions whose deadline has passed, then processes
each, returning the final state and the total number of refunded rows. -/
def refund_expired_escrows (s : State) (now : ℤ) : State × ℕ :=
  sweepLoop s now
    ((s.questions.filter
      (fun q => q.status == QuestionStatus.opened && decide (q.deadline < now))).map
      (fun q => q.id))

/-- Bool condition under which one pass of the sweep over the question ids
`qids` refunds an escrow row: the row is held, its question is among the
swept ids, and that question has no answer in `ans`. -/
def refundCond (ans : List Answer) (qids : List String) (e : EscrowEntry) : Bool :=
  e.status == EscrowStatus.held && qids.contains e.question_id &&
    (ans.filter (fun a => a.question_id == e.question_id)).isEmpty

/-- Bool condition under which one pass of the sweep over the question ids
`qids` marks a question row expired: its id is among the swept ids and it has
no answer in `ans`. -/
def expireCond (ans : List Answer) (qids : List String) (q : Question) : Bool :=
  qids.contains q.id && (ans.filter (fun a => a.question_id == q.id)).isEmpty

/-- Staking endpoint (`app/routers/bounties.py`, `stake_points`): validates
the amount, the question's existence and openness, and the citizen's balance;
on success debits the wallet, appends a held escrow row, and bumps the
question's `total_bounty` by re-reading it.  Errors carry the source's HTTP
detail strings and leave the state untouched. -/
def stake_points (s : State) (user_id : String) (question_id : String)
    (amount : ℤ) (now : ℤ) (new_id : String) : Except String Unit × State :=
  if amount ≤ 0 then (Except.error "Stake amount must be positive", s)
  else
    match firstQuestion s question_id with
    | none => (Except.error "Question not found", s)
    | some q =>
      if q.status ≠ QuestionStatus.opened then
        (Except.error "Question is not open for staking", s)
      else
        match firstProfile s user_id with
        | none => (Except.error "Profile not found", s)
        | some profile =>
          if profile.civic_points < amount then
            (Except.error "Insufficient points", s)
          else
            let s1 : State := { s with profiles := s.profiles.map (fun p =>
              if p.id == user_id then
                { p with civic_points := profile.civic_points - amount }
              else p) }
            let entry : EscrowEntry :=
              { id := new_id, citizen_id := user_id, question_id := question_id
              , amount := amount, status := EscrowStatus.held
              , charity_id := none, released_at := none, created_at := now }
            let s2 := { s1 with escrows := s1.escrows ++ [entry] }
            match firstQuestion s2 question_id with
            | none => (Except.error "Question not found", s2)
            | some q2 =>
              (Except.ok (), { s2 with questions := s2.questions.map (fun r =>
                if r.id == question_id then
                  { r with total_bounty := q2.total_bounty + amount }
                else r) })

/-- Question creation (`app/routers/questions.py`, `create_question`):
verifies the target politician, checks the balance only when
`initial_stake > 0`, inserts the question with `total_bounty` initialized to
`initial_stake` and a deadline 14 days out, and only for a positive stake
debits the wallet and appends a held escrow row. -/
def create_question (s : State) (user : Profile) (data : QuestionCreate)
    (now : ℤ) (new_qid new_eid : String) : Except String Question × State :=
  match (s.profiles.filter (fun p =>
      p.id == data.target_politician_id && p.role == "politician")).head? with
  | none => (Except.error "Politician not found", s)
  | some _ =>
    if 0 < data.initial_stake ∧ user.civic_points < data.initial_stake then
      (Except.error "Insufficient civic points", s)
    else
      let q : Question :=
        { id := new_qid, title := data.title, body := data.body
        , citizen_id := user.id
        , target_politician_id := data.target_politician_id
        , total_bounty := data.initial_stake
        , status := QuestionStatus.opened
        , ai_directness_score := none
        , created_at := now, deadline := now + 14 * 86400 }
      let s1 := { s with questions := s.questions ++ [q] }
      if 0 < data.initial_stake then
        let s2 : State := { s1 with profiles := s1.profiles.map (fun p =>
          if p.id == user.id then
            { p with civic_points := user.civic_points - data.initial_stake }
          else p) }
        let entry : EscrowEntry :=
          { id := new_eid, citizen_id := user.id, question_id := new_qid
          , amount := data.initial_stake, status := EscrowStatus.held
          , charity_id := none, released_at := none, created_at := now }
        (Except.ok q, { s2 with escrows := s2.escrows ++ [entry] })
      else (Except.ok q, s1)

/-- Output shape of the AI arbiter (`app/models/answer.py`, `AIAnalysis`):
the arbiter itself always fills `directness_score`. -/
structure ArbiterAnalysis where
  directness_score : ℚ
  summary : String
  flags : List String
deriving DecidableEq

/-- Parsed JSON the external model's reply may carry
(`ai_arbiter.py` lines 64-70): each key can be absent, in which case the
source falls back to a default. -/
structure GeminiParsed where
  directness_score : Option ℚ
  summary : Option String
  flags : Option (List String)
deriving DecidableEq

/-- AI arbiter (`app/services/ai_arbiter.py`, `analyze_answer_directness`).
The external Gemini call (and the JSON parse of its reply) is modelled as the
`outcome` parameter: `Except.error` stands for any exception raised inside the
`try`.  With no API key the source returns a mock analysis with score 75; on
an exception it returns the fallback score 50 flagged `analysis_failed`. -/
def analyze_answer_directness (gemini_api_key : String)
    (outcome : Except String GeminiParsed) : ArbiterAnalysis :=
  if gemini_api_key == "" then
    { directness_score := 75
    , summary := "AI analysis unavailable - using default score"
    , flags := [] }
  else
    match outcome with
    | Except.ok data =>
      { directness_score := data.directness_score.getD 50
      , summary := data.summary.getD "Analysis completed"
      , flags := data.flags.getD [] }
    | Except.error e =>
      { directness_score := 50
      , summary := "Analysis error: " ++ e.take 50
      , flags := ["analysis_failed"] }

/-- Record of a call into the rating engine made by a router; used to state
which executions update an official's belief. -/
inductive RatingEvent where
  | ratingUpdate (politician_id : String) (bounty_value : ℤ)
      (response_time_hours : ℚ)
deriving DecidableEq

/-- Answer submission (`app/routers/answers.py`, `submit_answer`): validates
the question (exists, addressed to the caller, open, unanswered), stores the
answer together with the optional AI analysis (`ai_result = none` models the
swallowed-exception path), marks the question answered, and then —
unconditionally — calls `update_rating_on_answer` with the question's bounty
and the response time in hours; that call is recorded as a `RatingEvent`.
No escrow release is evaluated on this path. -/
def submit_answer (s : State) (user_id : String) (question_id : String)
    (content : String) (ai_result : Option ArbiterAnalysis) (now : ℤ)
    (new_aid : String) : Except String (State × List RatingEvent) :=
  match firstQuestion s question_id with
  | none => Except.error "Question not found"
  | some q =>
    if q.target_politician_id ≠ user_id then
      Except.error "This question is not addressed to you"
    else if q.status ≠ QuestionStatus.opened then
      Except.error "Question is not open for answers"
    else if ¬ (s.answers.filter (fun a => a.question_id == question_id)).isEmpty then
      Except.error "Question already answered"
    else
      let stored : Option StoredAI :=
        ai_result.map (fun r => { directness_score := some r.directness_score })
      let ans : Answer :=
        { id := new_aid, question_id := question_id, politician_id := user_id
        , content := content, ai_analysis := stored, created_at := now }
      let s1 := { s with answers := s.answers ++ [ans] }
      let s2 := { s1 with questions := s1.questions.map (fun r =>
        if r.id == question_id then
          { r with status := QuestionStatus.answered
                 , ai_directness_score := ai_result.map (fun a => a.directness_score) }
        else r) }
      let response_time_hours : ℚ := ((now - q.created_at : ℤ) : ℚ) / 3600
      Except.ok (s2, [RatingEvent.ratingUpdate user_id q.total_bounty response_time_hours])

/-- Conservative skill estimate (`app/services/ranking.py`,
`calculate_conservative_rating`): mu minus three sigma. -/
def calculate_conservative_rating (mu : ℚ) (sigma : ℚ) : ℚ :=
  mu - 3 * sigma

/-- A politician's profile row as the leaderboard reads it
(`app/routers/leaderboard.py`): id plus the stored belief. -/
structure PoliticianRow where
  id : String
  mu : ℚ
  sigma : ℚ
deriving DecidableEq

/-- Stable descending insertion by the `mu` key: a new row goes in front of
the first strictly smaller `mu`. -/
def insertByMuDesc (p : PoliticianRow) : List PoliticianRow → List PoliticianRow
  | [] => [p]
  | q :: qs => if q.mu < p.mu then p :: q :: qs else q :: insertByMuDesc p qs

/-- The leaderboard query's ordering (`app/routers/leaderboard.py`,
`get_leaderboard`): the store returns the politician rows ordered by raw `mu`
descending (`.order("mu", desc=True)`), modelled as a stable sort on `mu`. -/
def get_leaderboard (rows : List PoliticianRow) : List PoliticianRow :=
  rows.foldr insertByMuDesc []

/-- Bounty weight of a rating update (`ranking.py` lines 41-42):
logarithmic in the bounty. -/
noncomputable def bounty_weight (bounty_value : ℤ) : ℝ :=
  1 + Real.logb 10 ((max bounty_value 1 : ℤ) + 1 : ℤ) / 3

/-- Speed weight of a rating update (`ranking.py` lines 44-52): piecewise in
the response time. -/
noncomputable def speed_weight (response_time_hours : ℝ) : ℝ :=
  if response_time_hours ≤ 1 then 1.3
  else if response_time_hours ≤ 24 then 1.0 + 0.3 * (1 - response_time_hours / 24)
  else if response_time_hours ≤ 72 then 1.0 - 0.2 * ((response_time_hours - 24) / 48)
  else 0.8

/-- Satisfaction weight of a rating update (`ranking.py` lines 54-64):
piecewise in the optional satisfaction score. -/
noncomputable def satisfaction_weight : Option ℝ → ℝ
  | none => 1.0
  | some score =>
    if 80 ≤ score then 1.2
    else if 60 ≤ score then 1.0
    else if 40 ≤ score then 0.9
    else 0.7

/-- Combined performance multiplier (`ranking.py` line 67). -/
noncomputable def performanceOf (bounty_value : ℤ) (response_time_hours : ℝ)
    (satisfaction_score : Option ℝ) : ℝ :=
  bounty_weight bounty_value * speed_weight response_time_hours *
    satisfaction_weight satisfaction_score

/-- Rating update on an answer (`app/services/ranking.py`,
`update_rating_on_answer`), as the pure belief transformer it persists.
`rate_mu`/`rate_sigma` are the mu and sigma the external openskill pairwise
model returns for the politician when ranked ahead of the fixed virtual
opponent; the function body is otherwise a direct translation: scaled gain on
performance at least 1, the fixed nudge below 1, then the final clamp of mu to
[0, 50] and sigma to [1, 10]. -/
noncomputable def update_rating_on_answer (current_mu current_sigma : ℝ)
    (bounty_value : ℤ) (response_time_hours : ℝ)
    (satisfaction_score : Option ℝ) (rate_mu rate_sigma : ℝ) : ℝ × ℝ :=
  let performance := performanceOf bounty_value response_time_hours satisfaction_score
  let pair :=
    if 1.0 ≤ performance then
      let mu_gain := (rate_mu - current_mu) * min performance 2.0
      (current_mu + mu_gain, rate_sigma)
    else
      (current_mu + 0.1, max (current_sigma - 0.1) 1.0)
  (max 0 (min pair.1 50), max 1.0 (min pair.2 10.0))

/-- Penalty for an ignored question (`app/services/ranking.py`,
`penalize_ignored_question`), as the pure belief transformer it persists:
mu is lowered by a bounty- and time-scaled penalty and floored at 0, sigma is
raised and capped at 10; there is no upper clamp on mu and no lower clamp on
sigma. -/
noncomputable def penalize_ignored_question (current_mu current_sigma : ℝ)
    (bounty_value : ℤ) (days_ignored : ℤ) : ℝ × ℝ :=
  let bounty_factor := Real.logb 10 ((max bounty_value 10 : ℤ) : ℝ) / 2
  let time_factor := min ((days_ignored : ℝ) / 7) 2.0
  let mu_penalty := 0.5 * bounty_factor * time_factor
  let sigma_increase := 0.2 * time_factor
  (max 0 (current_mu - mu_penalty), min 10.0 (current_sigma + sigma_increase))

/-- Released rows of a state, used to observe that an execution performed no
escrow release. -/
def releasedOf (s : State) : List EscrowEntry :=
  s.escrows.filter (fun e => e.status == EscrowStatus.released)

/-- Sample profiles: a citizen holding 100 points and a politician. -/
def exProfiles : List Profile :=
  [{ id := "c1", role := "citizen", civic_points := 100 },
   { id := "p1", role := "politician", civic_points := 0 }]

/-- Sample open question by the citizen for the politician, bounty 30,
created at time 0 with deadline 100. -/
def exQ1 : Question :=
  { id := "q1", title := "T", body := "B", citizen_id := "c1"
  , target_politician_id := "p1", total_bounty := 30
  , status := QuestionStatus.opened, ai_directness_score := none
  , created_at := 0, deadline := 100 }

/-- Sample held escrow row: the citizen staked 30 on the question. -/
def exE1 : EscrowEntry :=
  { id := "e1", citizen_id := "c1", question_id := "q1", amount := 30
  , status := EscrowStatus.held, charity_id := none, released_at := none
  , created_at := 0 }

/-- Sample store: the citizen, the politician, the open question and the held
stake; no answer and no votes yet. -/
def exState : State :=
  { profiles := exProfiles, questions := [exQ1], answers := [], votes := []
  , escrows := [exE1] }

/-- Sample answer carrying a stored AI analysis with directness score 80. -/
def exAns : Answer :=
  { id := "a1", question_id := "q1", politician_id := "p1"
  , content := "detailed answer", ai_analysis := some { directness_score := some 80 }
  , created_at := 3600 }

/-- Sample store in which the question has been answered with AI score 80. -/
def exStateAns : State :=
  { exState with answers := [exAns] }

/-- The store `exState` turns into after `submit_answer` at time 3600 with the
AI analysis unavailable: the answer row is inserted, the question is marked
answered, and nothing else changes. -/
def exSubmitted : State :=
  { profiles := exProfiles
  , questions :=
      [{ exQ1 with status := QuestionStatus.answered, ai_directness_score := none }]
  , answers :=
      [{ id := "a1", question_id := "q1", politician_id := "p1"
       , content := "Here is my answer", ai_analysis := none, created_at := 3600 }]
  , votes := [], escrows := [exE1] }

/-- Helper: with pairwise-distinct keys, any list element whose key matches a
`.single()` lookup is the looked-up element itself. -/
theorem head_filter_unique {α : Type} (f : α → String) (l : List α)
    (hn : (l.map f).Nodup) (x : String) (a : α)
    (ha : (l.filter (fun r => f r == x)).head? = some a) :
    ∀ r ∈ l, f r = x → r = a := by
  induction l with
  | nil => intro r hr; exact absurd hr (List.not_mem_nil r)
  | cons b t ih =>
    simp only [List.map_cons, List.nodup_cons] at hn
    intro r hr hfr
    by_cases hb : f b == x
    · have hba : b = a := by
        simp only [List.filter_cons, hb, if_pos] at ha
        simpa using ha
      rcases List.mem_cons.mp hr with h | h
      · exact h ▸ hba
      · exfalso
        have hbx : f b = x := by simpa using hb
        have : f r = f b := by rw [hfr, hbx]
        exact hn.1 (this ▸ List.mem_map_of_mem f h)
    · rcases List.mem_cons.mp hr with h | h
      · subst h; exact absurd hfr (by simpa using hb)
      · have ha' : (t.filter (fun r => f r == x)).head? = some a := by
          simpa [List.filter_cons, hb] using ha
        exact ih hn.2 ha' r h hfr

/-- C1: for a question with an answer, the release evaluation's AI branch
holds exactly when a stored directness score is present and at least 70, its
vote branch holds exactly when at least one vote exists and the helpful
fraction strictly exceeds one half, the evaluation routes to the idempotent
`release_escrow` call exactly when either branch holds, and when neither
holds it returns `false` and leaves the store unchanged. -/
theorem release_evaluation_iff_ai_or_votes (s : State) (qid : String) (now : ℤ)
    (a : Answer) (ha : firstAnswer s qid = some a) :
    (aiPassesB a.ai_analysis = true ↔
      ∃ score : ℚ, a.ai_analysis.bind (fun d => d.directness_score) = some score ∧
        70 ≤ score) ∧
    (votesPassB (s.votes.filter (fun v => v.answer_id == a.id)) = true ↔
      1 ≤ (s.votes.filter (fun v => v.answer_id == a.id)).length ∧
        (1 : ℚ) / 2 <
          (((s.votes.filter (fun v => v.answer_id == a.id)).filter
              (fun v => v.is_helpful)).length : ℚ) /
            ((s.votes.filter (fun v => v.answer_id == a.id)).length : ℚ)) ∧
    ((aiPassesB a.ai_analysis ||
        votesPassB (s.votes.filter (fun v => v.answer_id == a.id))) = true →
      check_and_release_escrow s qid now = release_escrow s qid none now) ∧
    ((aiPassesB a.ai_analysis ||
        votesPassB (s.votes.filter (fun v => v.answer_id == a.id))) = false →
      check_and_release_escrow s qid now = (false, s)) := by
  refine ⟨?_, ?_, ?_, ?_⟩
  · unfold aiPassesB
    cases hai : a.ai_analysis with
    | none => simp
    | some d =>
      cases hd : d.directness_score with
      | none => simp [hd]
      | some sc => simp [hd]
  · unfold votesPassB
    by_cases hlen : 1 ≤ (s.votes.filter (fun v => v.answer_id == a.id)).length
    · simp [hlen]
    · simp [hlen]
  · intro hcond
    unfold check_and_release_escrow
    rw [ha]
    simp only [hcond]
    simp
  · intro hcond
    unfold check_and_release_escrow
    rw [ha]
    simp only [hcond]
    simp

/-- Witness for C1: in the sample store whose answer carries directness score
80, the release evaluation's characterization holds with all hypotheses
discharged concretely. -/
theorem release_evaluation_iff_ai_or_votes_witness :
    firstAnswer exStateAns "q1" = some exAns ∧
    ((aiPassesB exAns.ai_analysis = true ↔
      ∃ score : ℚ, exAns.ai_analysis.bind (fun d => d.directness_score) = some score ∧
        70 ≤ score) ∧
    (votesPassB (exStateAns.votes.filter (fun v => v.answer_id == exAns.id)) = true ↔
      1 ≤ (exStateAns.votes.filter (fun v => v.answer_id == exAns.id)).length ∧
        (1 : ℚ) / 2 <
          (((exStateAns.votes.filter (fun v => v.answer_id == exAns.id)).filter
              (fun v => v.is_helpful)).length : ℚ) /
            ((exStateAns.votes.filter (fun v => v.answer_id == exAns.id)).length : ℚ)) ∧
    ((aiPassesB exAns.ai_analysis ||
        votesPassB (exStateAns.votes.filter (fun v => v.answer_id == exAns.id))) = true →
      check_and_release_escrow exStateAns "q1" 7200 =
        release_escrow exStateAns "q1" none 7200) ∧
    ((aiPassesB exAns.ai_analysis ||
        votesPassB (exStateAns.votes.filter (fun v => v.answer_id == exAns.id))) = false →
      check_and_release_escrow exStateAns "q1" 7200 = (false, exStateAns))) :=
  ⟨by decide, release_evaluation_iff_ai_or_votes exStateAns "q1" 7200 exAns (by decide)⟩

/-- C7 (amended): the AI arbiter never surfaces unavailability as an error of
the release evaluation — it always returns an analysis, the vote-only path
treats a missing analysis as a failing AI branch, and a collaborator error
(with credentials configured) yields the fallback score 50, which cannot meet
the 70 release threshold; however, missing credentials yield the mock score
75 rather than an unusable score. -/
theorem ai_unavailable_degrades (key : String) (outcome : Except String GeminiParsed) :
    aiPassesB none = false ∧
    (key = "" → analyze_answer_directness key outcome =
      { directness_score := 75
      , summary := "AI analysis unavailable - using default score", flags := [] }) ∧
    (key ≠ "" → ∀ e : String, outcome = Except.error e →
      analyze_answer_directness key outcome =
        { directness_score := 50, summary := "Analysis error: " ++ e.take 50
        , flags := ["analysis_failed"] } ∧
      ¬ (70 : ℚ) ≤ (analyze_answer_directness key outcome).directness_score) := by
  refine ⟨rfl, ?_, ?_⟩
  · intro hkey
    simp [analyze_answer_directness, hkey]
  · intro hkey e houtcome
    have hk : (key == "") = false := by
      simpa using hkey
    subst houtcome
    constructor
    · simp [analyze_answer_directness, hk]
    · simp [analyze_answer_directness, hk]
      norm_num

/-- Witness for C7: at a concrete configured key and a concrete collaborator
failure, the degradation facts hold with the hypotheses discharged. -/
theorem ai_unavailable_degrades_witness :
    aiPassesB none = false ∧
    ("sk-key" = "" → analyze_answer_directness "sk-key" (Except.error "timeout") =
      { directness_score := 75
      , summary := "AI analysis unavailable - using default score", flags := [] }) ∧
    ("sk-key" ≠ "" → ∀ e : String, (Except.error "timeout" : Except String GeminiParsed) = Except.error e →
      analyze_answer_directness "sk-key" (Except.error "timeout") =
        { directness_score := 50, summary := "Analysis error: " ++ e.take 50
        , flags := ["analysis_failed"] } ∧
      ¬ (70 : ℚ) ≤ (analyze_answer_directness "sk-key" (Except.error "timeout")).directness_score) :=
  ai_unavailable_degrades "sk-key" (Except.error "timeout")

/-- Counterexample for C7: with missing credentials (no API key configured)
the arbiter returns the numeric mock score 75, which satisfies the release
threshold of 70 and makes the AI branch pass — contradicting the claim that
unavailability never produces a score that can satisfy the threshold. -/
theorem ai_unavailable_mock_score_passes_cex :
    (analyze_answer_directness "" (Except.error "timeout")).directness_score = 75 ∧
    (70 : ℚ) ≤ (analyze_answer_directness "" (Except.error "timeout")).directness_score ∧
    aiPassesB (some (StoredAI.mk
      (some (analyze_answer_directness "" (Except.error "timeout")).directness_score))) = true := by
  refine ⟨rfl, by norm_num [analyze_answer_directness], by decide⟩

/-- C10: creating a question with a non-positive `initial_stake` performs no
balance check and succeeds regardless of the caller's balance, debits
nothing, creates no escrow row, and still initializes the created question's
`total_bounty` to `initial_stake` itself — so a negative `initial_stake`
produces a question whose bounty aggregate is negative while the sum of the
amounts of its (zero) escrow rows is 0. -/
theorem create_question_nonpositive_stake (s : State) (user : Profile)
    (data : QuestionCreate) (now : ℤ) (new_qid new_eid : String)
    (hpol : ((s.profiles.filter (fun p =>
      p.id == data.target_politician_id && p.role == "politician")).head?).isSome)
    (hstake : data.initial_stake ≤ 0)
    (hfresh : ∀ e ∈ s.escrows, e.question_id ≠ new_qid) :
    ∃ q : Question, ∃ s1 : State,
      create_question s user data now new_qid new_eid = (Except.ok q, s1) ∧
      s1.profiles = s.profiles ∧
      s1.escrows = s.escrows ∧
      q.total_bounty = data.initial_stake ∧
      ((s1.escrows.filter (fun e => e.question_id == new_qid)).map
        (fun e => e.amount)).sum = 0 ∧
      (data.initial_stake < 0 →
        q.total_bounty ≠
          ((s1.escrows.filter (fun e => e.question_id == new_qid)).map
            (fun e => e.amount)).sum) := by
  obtain ⟨pol, hp⟩ := Option.isSome_iff_exists.mp hpol
  have hnotpos : ¬ 0 < data.initial_stake := not_lt.mpr hstake
  have hfil : s.escrows.filter (fun e => e.question_id == new_qid) = [] := by
    apply List.filter_eq_nil_iff.mpr
    intro e he
    simpa using hfresh e he
  refine ⟨{ id := new_qid, title := data.title, body := data.body
          , citizen_id := user.id
          , target_politician_id := data.target_politician_id
          , total_bounty := data.initial_stake
          , status := QuestionStatus.opened
          , ai_directness_score := none
          , created_at := now, deadline := now + 14 * 86400 },
         { s with questions := s.questions ++
            [{ id := new_qid, title := data.title, body := data.body
             , citizen_id := user.id
             , target_politician_id := data.target_politician_id
             , total_bounty := data.initial_stake
             , status := QuestionStatus.opened
             , ai_directness_score := none
             , created_at := now, deadline := now + 14 * 86400 }] },
         ?_, rfl, rfl, rfl, ?_, ?_⟩
  · unfold create_question
    rw [hp]
    simp only [hnotpos, false_and, if_false, if_neg hnotpos]
  · simp [hfil]
  · intro hneg
    simp only [hfil, List.map_nil, List.sum_nil]
    exact ne_of_lt hneg

/-- Witness for C10: in the sample store, creating a question for the
politician with initial stake −5 succeeds, moves no points, creates no escrow
row, and records a bounty of −5 that differs from the (empty) escrow sum. -/
theorem create_question_nonpositive_stake_witness :
    (((exState.profiles.filter (fun p =>
      p.id == "p1" && p.role == "politician")).head?).isSome) ∧
    ((-5 : ℤ) ≤ 0) ∧
    (∃ q : Question, ∃ s1 : State,
      create_question exState { id := "c1", role := "citizen", civic_points := 100 }
          { title := "t", body := "b", target_politician_id := "p1", initial_stake := -5 }
          0 "q2" "e9" = (Except.ok q, s1) ∧
      s1.profiles = exState.profiles ∧
      s1.escrows = exState.escrows ∧
      q.total_bounty = (-5 : ℤ) ∧
      ((s1.escrows.filter (fun e => e.question_id == "q2")).map
        (fun e => e.amount)).sum = 0 ∧
      ((-5 : ℤ) < 0 →
        q.total_bounty ≠
          ((s1.escrows.filter (fun e => e.question_id == "q2")).map
            (fun e => e.amount)).sum)) :=
  ⟨by decide, by decide,
    create_question_nonpositive_stake exState
      { id := "c1", role := "citizen", civic_points := 100 }
      { title := "t", body := "b", target_politician_id := "p1", initial_stake := -5 }
      0 "q2" "e9" (by decide) (by decide) (by decide)⟩

/-- Helper: membership in a stable descending insertion. -/
theorem mem_insertByMuDesc (p b : PoliticianRow) (l : List PoliticianRow) :
    b ∈ insertByMuDesc p l ↔ b = p ∨ b ∈ l := by
  induction l with
  | nil => simp [insertByMuDesc]
  | cons q qs ih =>
    by_cases h : q.mu < p.mu
    · simp [insertByMuDesc, h]
    · simp [insertByMuDesc, h, ih]
      tauto

/-- Helper: stable descending insertion preserves sortedness by `mu`. -/
theorem sorted_insertByMuDesc (p : PoliticianRow) (l : List PoliticianRow)
    (hl : l.Sorted (fun a b => b.mu ≤ a.mu)) :
    (insertByMuDesc p l).Sorted (fun a b => b.mu ≤ a.mu) := by
  induction l with
  | nil => simp [insertByMuDesc]
  | cons q qs ih =>
    rw [List.sorted_cons] at hl
    by_cases h : q.mu < p.mu
    · rw [insertByMuDesc, if_pos h, List.sorted_cons]
      constructor
      · intro b hb
        rcases List.mem_cons.mp hb with hbq | hbqs
        · exact hbq ▸ le_of_lt h
        · exact le_trans (hl.1 b hbqs) (le_of_lt h)
      · rw [List.sorted_cons]
        exact hl
    · rw [insertByMuDesc, if_neg h, List.sorted_cons]
      constructor
      · intro b hb
        rcases (mem_insertByMuDesc p b qs).mp hb with hbp | hbqs
        · exact hbp ▸ not_lt.mp h
        · exact hl.1 b hbqs
      · exact ih hl.2

/-- Helper: stable descending insertion is a permutation of consing. -/
theorem perm_insertByMuDesc (p : PoliticianRow) (l : List PoliticianRow) :
    (insertByMuDesc p l).Perm (p :: l) := by
  induction l with
  | nil => simp [insertByMuDesc]
  | cons q qs ih =>
    by_cases h : q.mu < p.mu
    · rw [insertByMuDesc, if_pos h]
    · rw [insertByMuDesc, if_neg h]
      exact (ih.cons q).trans (List.Perm.swap p q qs)

/-- C6 (amended): `calculate_conservative_rating` is the pure function
mu − 3σ, but the leaderboard is ordered by raw `mu` descending — the rows the
leaderboard returns are a permutation of the profile rows sorted so that each
row's `mu` is at least the `mu` of every later row; the conservative score
plays no part in the ordering. -/
theorem conservative_score_and_leaderboard_by_mu (rows : List PoliticianRow)
    (mu sigma : ℚ) :
    calculate_conservative_rating mu sigma = mu - 3 * sigma ∧
    (get_leaderboard rows).Perm rows ∧
    (get_leaderboard rows).Sorted (fun a b => b.mu ≤ a.mu) := by
  refine ⟨rfl, ?_, ?_⟩
  · induction rows with
    | nil => simp [get_leaderboard]
    | cons r rs ih =>
      have : get_leaderboard (r :: rs) = insertByMuDesc r (get_leaderboard rs) := rfl
      rw [this]
      exact (perm_insertByMuDesc r (get_leaderboard rs)).trans (ih.cons r)
  · induction rows with
    | nil => simp [get_leaderboard]
    | cons r rs ih =>
      have : get_leaderboard (r :: rs) = insertByMuDesc r (get_leaderboard rs) := rfl
      rw [this]
      exact sorted_insertByMuDesc r (get_leaderboard rs) ih

/-- Counterexample for C6: official A with belief (mu 30, sigma 10) has
conservative score 0, official B with (mu 25, sigma 1) has conservative score
22; the leaderboard nevertheless ranks A ahead of B because it orders by raw
`mu`, contradicting the claim that the official with the greater mu − 3σ is
ranked ahead. -/
theorem leaderboard_not_by_conservative_cex :
    get_leaderboard
        [{ id := "A", mu := 30, sigma := 10 }, { id := "B", mu := 25, sigma := 1 }] =
      [{ id := "A", mu := 30, sigma := 10 }, { id := "B", mu := 25, sigma := 1 }] ∧
    calculate_conservative_rating 30 10 < calculate_conservative_rating 25 1 := by
  refine ⟨by decide, by norm_num [calculate_conservative_rating]⟩

/-- C4 (amended): after `update_rating_on_answer`, the persisted belief always
satisfies mu ∈ [0, 50] and sigma ∈ [1, 10] — for every starting belief, every
bounty, response time, satisfaction score and every output of the external
pairwise model, thanks to the final clamp; after `penalize_ignored_question`
the same bounds hold for every starting belief inside the bounds provided the
days-ignored input is non-negative. -/
theorem rating_bounds_clamped (mu sigma : ℝ) (b : ℤ) (h : ℝ) (sat : Option ℝ)
    (rmu rsig : ℝ) (bp : ℤ) (days : ℤ)
    (hmu0 : 0 ≤ mu) (hmu1 : mu ≤ 50) (hs0 : 1 ≤ sigma) (hs1 : sigma ≤ 10)
    (hdays : 0 ≤ days) :
    (0 ≤ (update_rating_on_answer mu sigma b h sat rmu rsig).1 ∧
      (update_rating_on_answer mu sigma b h sat rmu rsig).1 ≤ 50 ∧
      1 ≤ (update_rating_on_answer mu sigma b h sat rmu rsig).2 ∧
      (update_rating_on_answer mu sigma b h sat rmu rsig).2 ≤ 10) ∧
    (0 ≤ (penalize_ignored_question mu sigma bp days).1 ∧
      (penalize_ignored_question mu sigma bp days).1 ≤ 50 ∧
      1 ≤ (penalize_ignored_question mu sigma bp days).2 ∧
      (penalize_ignored_question mu sigma bp days).2 ≤ 10) := by
  constructor
  · unfold update_rating_on_answer
    refine ⟨le_max_left 0 _, ?_, ?_, ?_⟩
    · exact max_le (by norm_num) (min_le_right _ _)
    · exact le_trans (by norm_num) (le_max_left (1.0 : ℝ) _)
    · exact max_le (by norm_num) (le_trans (min_le_right _ _) (by norm_num))
  · unfold penalize_ignored_question
    have hbf : 0 ≤ Real.logb 10 ((max bp 10 : ℤ) : ℝ) / 2 := by
      apply div_nonneg _ (by norm_num)
      apply Real.logb_nonneg (by norm_num)
      have : (10 : ℤ) ≤ max bp 10 := le_max_right bp 10
      have h10 : (10 : ℝ) ≤ ((max bp 10 : ℤ) : ℝ) := by exact_mod_cast this
      linarith
    have htf0 : 0 ≤ min ((days : ℝ) / 7) 2.0 := by
      apply le_min
      · apply div_nonneg _ (by norm_num)
        exact_mod_cast hdays
      · norm_num
    have hpen : 0 ≤ 0.5 * (Real.logb 10 ((max bp 10 : ℤ) : ℝ) / 2) *
        min ((days : ℝ) / 7) 2.0 := by
      apply mul_nonneg (mul_nonneg (by norm_num) hbf) htf0
    have hinc : 0 ≤ 0.2 * min ((days : ℝ) / 7) 2.0 := by
      apply mul_nonneg (by norm_num) htf0
    refine ⟨le_max_left 0 _, ?_, ?_, le_trans (min_le_left _ _) (by norm_num)⟩
    · apply max_le (by norm_num)
      linarith
    · apply le_min (by norm_num)
      linarith

/-- Witness for C4: the bounds hold concretely for a belief (25, 5), bounty
100, response time 2 hours, no satisfaction score, pairwise-model output
(26, 8), and penalty inputs bounty 100, 7 days ignored. -/
theorem rating_bounds_clamped_witness :
    ((0 : ℝ) ≤ 25 ∧ (25 : ℝ) ≤ 50 ∧ (1 : ℝ) ≤ 5 ∧ (5 : ℝ) ≤ 10 ∧ (0 : ℤ) ≤ 7) ∧
    ((0 ≤ (update_rating_on_answer 25 5 100 2 none 26 8).1 ∧
      (update_rating_on_answer 25 5 100 2 none 26 8).1 ≤ 50 ∧
      1 ≤ (update_rating_on_answer 25 5 100 2 none 26 8).2 ∧
      (update_rating_on_answer 25 5 100 2 none 26 8).2 ≤ 10) ∧
    (0 ≤ (penalize_ignored_question 25 5 100 7).1 ∧
      (penalize_ignored_question 25 5 100 7).1 ≤ 50 ∧
      1 ≤ (penalize_ignored_question 25 5 100 7).2 ∧
      (penalize_ignored_question 25 5 100 7).2 ≤ 10)) :=
  ⟨⟨by norm_num, by norm_num, by norm_num, by norm_num, by norm_num⟩,
    rating_bounds_clamped 25 5 100 2 none 26 8 100 7
      (by norm_num) (by norm_num) (by norm_num) (by norm_num) (by norm_num)⟩

/-- Counterexample for C4: `penalize_ignored_question` has no upper clamp on
mu and no lower clamp on sigma, so for the in-bounds belief (50, 1), bounty
10 and the input −7 days ignored, the persisted belief is (50.25, 0.8) —
outside both claimed bounds. -/
theorem penalize_ignored_violates_bounds_cex :
    (50 : ℝ) < (penalize_ignored_question 50 1 10 (-7)).1 ∧
    (penalize_ignored_question 50 1 10 (-7)).2 < 1 := by
  unfold penalize_ignored_question
  dsimp only
  have hmax : (max (10 : ℤ) 10 : ℤ) = 10 := by norm_num
  rw [hmax]
  have hlogb : Real.logb 10 ((10 : ℤ) : ℝ) = 1 := by
    have h10 : ((10 : ℤ) : ℝ) = (10 : ℝ) := by norm_num
    rw [h10]
    exact Real.logb_self_eq_one (by norm_num)
  rw [hlogb]
  have hmin : min (((-7 : ℤ) : ℝ) / 7) 2.0 = -1 := by
    have h7 : (((-7 : ℤ) : ℝ) / 7) = -1 := by norm_num
    rw [h7]
    norm_num
  rw [hmin]
  constructor
  · apply lt_max_iff.mpr
    right
    norm_num
  · apply min_lt_iff.mpr
    right
    norm_num

/-- C5: the performance multiplier equals bountyWeight × speedWeight ×
satisfactionWeight with the claimed closed forms and piecewise cases, and
whenever the multiplier is below 1, the update applies the minimal nudge
mu + 0.1 and max(sigma − 0.1, 1) before the final clamp — with in-bounds mu
this is never a loss of mu. -/
theorem performance_multiplier_and_low_performance_nudge
    (mu sigma : ℝ) (b : ℤ) (h : ℝ) (sc : ℝ) (sat : Option ℝ) (rmu rsig : ℝ) :
    performanceOf b h sat =
      bounty_weight b * speed_weight h * satisfaction_weight sat ∧
    bounty_weight b = 1 + Real.logb 10 ((max b 1 : ℤ) + 1 : ℤ) / 3 ∧
    (h ≤ 1 → speed_weight h = 1.3) ∧
    (1 < h → h ≤ 24 → speed_weight h = 1.0 + 0.3 * (1 - h / 24)) ∧
    (24 < h → h ≤ 72 → speed_weight h = 1.0 - 0.2 * ((h - 24) / 48)) ∧
    (72 < h → speed_weight h = 0.8) ∧
    (80 ≤ sc → satisfaction_weight (some sc) = 1.2) ∧
    (60 ≤ sc → sc < 80 → satisfaction_weight (some sc) = 1.0) ∧
    (40 ≤ sc → sc < 60 → satisfaction_weight (some sc) = 0.9) ∧
    (sc < 40 → satisfaction_weight (some sc) = 0.7) ∧
    satisfaction_weight none = 1.0 ∧
    (performanceOf b h sat < 1 →
      update_rating_on_answer mu sigma b h sat rmu rsig =
        (max 0 (min (mu + 0.1) 50), max 1.0 (min (max (sigma - 0.1) 1.0) 10.0))) ∧
    (0 ≤ mu → mu ≤ 50 → performanceOf b h sat < 1 →
      mu ≤ (update_rating_on_answer mu sigma b h sat rmu rsig).1) := by
  have hlow : performanceOf b h sat < 1 →
      update_rating_on_answer mu sigma b h sat rmu rsig =
        (max 0 (min (mu + 0.1) 50), max 1.0 (min (max (sigma - 0.1) 1.0) 10.0)) := by
    intro hperf
    have hcond : ¬ (1.0 : ℝ) ≤ performanceOf b h sat := by
      rw [show (1.0 : ℝ) = 1 by norm_num]
      exact not_le.mpr hperf
    unfold update_rating_on_answer
    dsimp only
    rw [if_neg hcond]
  refine ⟨rfl, rfl, ?_, ?_, ?_, ?_, ?_, ?_, ?_, ?_, rfl, hlow, ?_⟩
  · intro h1
    rw [speed_weight, if_pos h1]
  · intro h1 h24
    rw [speed_weight, if_neg (not_le.mpr h1), if_pos h24]
  · intro h24 h72
    rw [speed_weight, if_neg (by linarith : ¬ h ≤ 1),
      if_neg (not_le.mpr h24), if_pos h72]
  · intro h72
    rw [speed_weight, if_neg (by linarith : ¬ h ≤ 1),
      if_neg (by linarith : ¬ h ≤ 24), if_neg (not_le.mpr h72)]
  · intro h80
    rw [satisfaction_weight, if_pos h80]
  · intro h60 h80
    rw [satisfaction_weight, if_neg (not_le.mpr h80), if_pos h60]
  · intro h40 h60
    rw [satisfaction_weight, if_neg (by linarith : ¬ (80 : ℝ) ≤ sc),
      if_neg (not_le.mpr h60), if_pos h40]
  · intro h40
    rw [satisfaction_weight, if_neg (by linarith : ¬ (80 : ℝ) ≤ sc),
      if_neg (by linarith : ¬ (60 : ℝ) ≤ sc), if_neg (not_le.mpr h40)]
  · intro hmu0 hmu50 hperf
    rw [hlow hperf]
    have h1 : mu ≤ min (mu + 0.1) 50 := le_min (by linarith) hmu50
    exact le_trans h1 (le_max_right 0 _)

/-- Witness for C5: for bounty 1, a 100-hour response and satisfaction 30 the
multiplier is below 1, so the update applies the minimal nudge to the belief
(25, 5), and mu does not decrease. -/
theorem performance_multiplier_and_low_performance_nudge_witness :
    performanceOf 1 100 (some 30) < 1 ∧
    update_rating_on_answer 25 5 1 100 (some 30) 26 8 =
      (max 0 (min ((25 : ℝ) + 0.1) 50), max 1.0 (min (max ((5 : ℝ) - 0.1) 1.0) 10.0)) ∧
    (25 : ℝ) ≤ (update_rating_on_answer 25 5 1 100 (some 30) 26 8).1 := by
  obtain ⟨hp, hbw, -, -, -, hs4, -, -, -, hsat0, -, hlow, hnoloss⟩ :=
    performance_multiplier_and_low_performance_nudge 25 5 1 100 30 (some 30) 26 8
  have hlog2pos : (0 : ℝ) ≤ Real.logb 10 2 :=
    Real.logb_nonneg (by norm_num) (by norm_num)
  have hlog2lt : Real.logb 10 2 < 1 := by
    rw [Real.logb, div_lt_one (Real.log_pos (by norm_num))]
    exact Real.log_lt_log (by norm_num) (by norm_num)
  have hbweq : bounty_weight 1 = 1 + Real.logb 10 2 / 3 := by
    unfold bounty_weight
    norm_num
  have hperf : performanceOf 1 100 (some 30) < 1 := by
    rw [hp, hs4 (by norm_num), hsat0 (by norm_num), hbweq]
    nlinarith [hlog2pos, hlog2lt]
  exact ⟨hperf, hlow hperf, hnoloss (by norm_num) (by norm_num) hperf⟩

/-- C8: staking fails exactly when the amount is non-positive, the question is
missing or not open, or the staker's balance is below the amount; every
failure leaves the store untouched, and success debits the staker by exactly
the amount, appends exactly one new held escrow row for the question, and
raises the question's `total_bounty` by exactly the amount. -/
theorem stake_points_spec (s : State) (uid qid : String) (amt now : ℤ)
    (nid : String) (p : Profile)
    (hp : firstProfile s uid = some p)
    (hqn : (s.questions.map (fun q => q.id)).Nodup)
    (hpn : (s.profiles.map (fun r => r.id)).Nodup) :
    ((stake_points s uid qid amt now nid).1 = Except.ok () ↔
      (0 < amt ∧
        (∃ q, firstQuestion s qid = some q ∧ q.status = QuestionStatus.opened) ∧
        amt ≤ p.civic_points)) ∧
    (∀ msg, (stake_points s uid qid amt now nid).1 = Except.error msg →
      (stake_points s uid qid amt now nid).2 = s) ∧
    (∀ q, firstQuestion s qid = some q → q.status = QuestionStatus.opened →
      0 < amt → amt ≤ p.civic_points →
      (stake_points s uid qid amt now nid).2 =
        { s with
          profiles := s.profiles.map (fun r =>
            if r.id == uid then { r with civic_points := r.civic_points - amt }
            else r)
        , escrows := s.escrows ++
            [{ id := nid, citizen_id := uid, question_id := qid, amount := amt
             , status := EscrowStatus.held, charity_id := none
             , released_at := none, created_at := now }]
        , questions := s.questions.map (fun r =>
            if r.id == qid then { r with total_bounty := r.total_bounty + amt }
            else r) }) := by
  have hpF : (s.profiles.filter (fun r => r.id == uid)).head? = some p := hp
  by_cases h0 : amt ≤ 0
  · have hrun : stake_points s uid qid amt now nid =
        (Except.error "Stake amount must be positive", s) := by
      unfold stake_points
      rw [if_pos h0]
    refine ⟨?_, ?_, ?_⟩
    · rw [hrun]
      constructor
      · intro hok
        exact absurd hok (by simp)
      · rintro ⟨hpos, -, -⟩
        exact absurd hpos (not_lt.mpr h0)
    · intro msg _
      rw [hrun]
    · intro q _ _ hpos
      exact absurd hpos (not_lt.mpr h0)
  · rcases hqc : firstQuestion s qid with - | q
    · have hrun : stake_points s uid qid amt now nid =
          (Except.error "Question not found", s) := by
        unfold stake_points
        rw [if_neg h0, hqc]
      refine ⟨?_, ?_, ?_⟩
      · rw [hrun]
        constructor
        · intro hok
          exact absurd hok (by simp)
        · rintro ⟨-, ⟨q, hq', -⟩, -⟩
          exact Option.noConfusion hq'
      · intro msg _
        rw [hrun]
      · intro q hq' _ _ _
        exact Option.noConfusion hq'
    · by_cases hst : q.status = QuestionStatus.opened
      · by_cases hbal : p.civic_points < amt
        · have hrun : stake_points s uid qid amt now nid =
              (Except.error "Insufficient points", s) := by
            unfold stake_points
            rw [if_neg h0, hqc]
            simp only [hp, hst]
            rw [if_neg (by simp), if_pos hbal]
          refine ⟨?_, ?_, ?_⟩
          · rw [hrun]
            constructor
            · intro hok
              exact absurd hok (by simp)
            · rintro ⟨-, -, hle⟩
              exact absurd hle (not_le.mpr hbal)
          · intro msg _
            rw [hrun]
          · intro q' _ _ _ hle
            exact absurd hle (not_le.mpr hbal)
        · -- success branch
          have hqF : (s.questions.filter (fun r => r.id == qid)).head? = some q := hqc
          have hqeq : ∀ r ∈ s.questions, r.id = qid → r = q :=
            head_filter_unique (fun x => x.id) s.questions hqn qid q hqF
          have hpeq : ∀ r ∈ s.profiles, r.id = uid → r = p :=
            head_filter_unique (fun x => x.id) s.profiles hpn uid p hpF
          have hrun : stake_points s uid qid amt now nid =
              (Except.ok (),
                { s with
                  profiles := s.profiles.map (fun r =>
                    if r.id == uid then
                      { r with civic_points := p.civic_points - amt } else r)
                , escrows := s.escrows ++
                    [{ id := nid, citizen_id := uid, question_id := qid
                     , amount := amt, status := EscrowStatus.held
                     , charity_id := none, released_at := none
                     , created_at := now }]
                , questions := s.questions.map (fun r =>
                    if r.id == qid then
                      { r with total_bounty := q.total_bounty + amt } else r) }) := by
            unfold stake_points
            rw [if_neg h0, hqc]
            simp only [hp, hst]
            rw [if_neg (by simp), if_neg hbal]
            have hq2 : firstQuestion
                { s with
                  profiles := s.profiles.map (fun r =>
                    if r.id == uid then
                      { r with civic_points := p.civic_points - amt } else r)
                , escrows := s.escrows ++
                    [{ id := nid, citizen_id := uid, question_id := qid
                     , amount := amt, status := EscrowStatus.held
                     , charity_id := none, released_at := none
                     , created_at := now }] } qid = some q := hqc
            rw [hq2]
          have hprofiles : s.profiles.map (fun r =>
              if r.id == uid then
                { r with civic_points := p.civic_points - amt } else r) =
              s.profiles.map (fun r =>
              if r.id == uid then
                { r with civic_points := r.civic_points - amt } else r) := by
            apply List.map_congr_left
            intro r hr
            by_cases hid : r.id = uid
            · rw [if_pos (by simpa using hid), if_pos (by simpa using hid),
                hpeq r hr hid]
            · rw [if_neg (by simpa using hid), if_neg (by simpa using hid)]
          have hquestions : s.questions.map (fun r =>
              if r.id == qid then
                { r with total_bounty := q.total_bounty + amt } else r) =
              s.questions.map (fun r =>
              if r.id == qid then
                { r with total_bounty := r.total_bounty + amt } else r) := by
            apply List.map_congr_left
            intro r hr
            by_cases hid : r.id = qid
            · rw [if_pos (by simpa using hid), if_pos (by simpa using hid),
                hqeq r hr hid]
            · rw [if_neg (by simpa using hid), if_neg (by simpa using hid)]
          refine ⟨?_, ?_, ?_⟩
          · rw [hrun]
            constructor
            · intro _
              exact ⟨not_le.mp h0, ⟨q, rfl, hst⟩, not_lt.mp hbal⟩
            · intro _
              rfl
          · intro msg hmsg
            rw [hrun] at hmsg
            exact absurd hmsg (by simp)
          · intro q' hq' _ _ _
            rw [hrun, hprofiles, hquestions]
      · have hrun : stake_points s uid qid amt now nid =
            (Except.error "Question is not open for staking", s) := by
          unfold stake_points
          rw [if_neg h0, hqc]
          simp only []
          rw [if_pos (by simpa using hst)]
        refine ⟨?_, ?_, ?_⟩
        · rw [hrun]
          constructor
          · intro hok
            exact absurd hok (by simp)
          · rintro ⟨-, ⟨q', hq', hst'⟩, -⟩
            cases hq'
            exact (hst hst').elim
        · intro msg _
          rw [hrun]
        · intro q' hq' hst' _ _
          cases hq'
          exact absurd hst' hst

/-- Witness for C8: in the sample store the staking characterization holds for
citizen c1 staking 50 on the open question q1, with all hypotheses discharged
concretely. -/
theorem stake_points_spec_witness :
    (firstProfile exState "c1" = some { id := "c1", role := "citizen", civic_points := 100 } ∧
      (exState.questions.map (fun q => q.id)).Nodup ∧
      (exState.profiles.map (fun r => r.id)).Nodup) ∧
    (((stake_points exState "c1" "q1" 50 5 "e2").1 = Except.ok () ↔
      (0 < (50 : ℤ) ∧
        (∃ q, firstQuestion exState "q1" = some q ∧ q.status = QuestionStatus.opened) ∧
        (50 : ℤ) ≤ (Profile.mk "c1" "citizen" 100).civic_points)) ∧
    (∀ msg, (stake_points exState "c1" "q1" 50 5 "e2").1 = Except.error msg →
      (stake_points exState "c1" "q1" 50 5 "e2").2 = exState) ∧
    (∀ q, firstQuestion exState "q1" = some q → q.status = QuestionStatus.opened →
      0 < (50 : ℤ) → (50 : ℤ) ≤ (Profile.mk "c1" "citizen" 100).civic_points →
      (stake_points exState "c1" "q1" 50 5 "e2").2 =
        { exState with
          profiles := exState.profiles.map (fun r =>
            if r.id == "c1" then { r with civic_points := r.civic_points - 50 }
            else r)
        , escrows := exState.escrows ++
            [{ id := "e2", citizen_id := "c1", question_id := "q1", amount := 50
             , status := EscrowStatus.held, charity_id := none
             , released_at := none, created_at := 5 }]
        , questions := exState.questions.map (fun r =>
            if r.id == "q1" then { r with total_bounty := r.total_bounty + 50 }
            else r) })) :=
  ⟨⟨by decide, by decide, by decide⟩,
    stake_points_spec exState "c1" "q1" 50 5 "e2"
      { id := "c1", role := "citizen", civic_points := 100 }
      (by decide) (by decide) (by decide)⟩

/-- C2 (amended): the rating update is not gated by escrow release — every
successful answer submission performs exactly one `update_rating_on_answer`
call, with the question's current `total_bounty` and the signed delta between
submission time and the question's creation time in hours, and the submission
path releases no escrow and moves no balances; `release_escrow` itself emits
no rating event at all. -/
theorem rating_update_unconditional_on_submit (s : State)
    (uid qid content : String) (ai : Option ArbiterAnalysis) (now : ℤ)
    (aid : String) (s' : State) (evs : List RatingEvent)
    (h : submit_answer s uid qid content ai now aid = Except.ok (s', evs)) :
    ∃ q, firstQuestion s qid = some q ∧
      evs = [RatingEvent.ratingUpdate uid q.total_bounty
        (((now - q.created_at : ℤ) : ℚ) / 3600)] ∧
      s'.escrows = s.escrows ∧ s'.profiles = s.profiles ∧ s'.votes = s.votes := by
  rcases hqc : firstQuestion s qid with - | q
  · unfold submit_answer at h
    rw [hqc] at h
    exact absurd h (by simp)
  · unfold submit_answer at h
    rw [hqc] at h
    dsimp only at h
    split_ifs at h with h1 h2 h3
    · simp only [Except.ok.injEq, Prod.mk.injEq] at h
      obtain ⟨hs, hevs⟩ := h
      subst hs
      subst hevs
      exact ⟨q, rfl, rfl, rfl, rfl, rfl⟩

/-- Helper: the concrete answer submission in the sample store evaluates to
the submitted store and the single rating-update event. -/
theorem submit_answer_exState_eval :
    submit_answer exState "p1" "q1" "Here is my answer" none 3600 "a1" =
      Except.ok (exSubmitted, [RatingEvent.ratingUpdate "p1" 30 1]) := by
  have hq : firstQuestion exState "q1" = some exQ1 := by decide
  unfold submit_answer
  rw [hq]
  simp only [exQ1, exState, exSubmitted, exProfiles, exE1]
  norm_num

/-- Witness for C2: the concrete submission discharges the theorem's
hypothesis, exhibiting the unconditional rating-update event. -/
theorem rating_update_unconditional_on_submit_witness :
    ∃ q, firstQuestion exState "q1" = some q ∧
      [RatingEvent.ratingUpdate "p1" 30 (1 : ℚ)] =
        [RatingEvent.ratingUpdate "p1" q.total_bounty
          ((((3600 : ℤ) - q.created_at : ℤ) : ℚ) / 3600)] ∧
      exSubmitted.escrows = exState.escrows ∧
      exSubmitted.profiles = exState.profiles ∧
      exSubmitted.votes = exState.votes :=
  rating_update_unconditional_on_submit exState "p1" "q1" "Here is my answer"
    none 3600 "a1" exSubmitted [RatingEvent.ratingUpdate "p1" 30 1]
    submit_answer_exState_eval

/-- Counterexample for C2: the answer submission in the sample store succeeds
and performs a rating update (the single emitted event), although no escrow
of the question was ever released — the question's only escrow row is held
before and after the submission, and `release_escrow` is never reached on
this path.  This refutes the claim that an official's belief is updated only
after a successful escrow release of the question. -/
theorem rating_update_without_release_cex :
    submit_answer exState "p1" "q1" "Here is my answer" none 3600 "a1" =
      Except.ok (exSubmitted, [RatingEvent.ratingUpdate "p1" 30 1]) ∧
    releasedOf exState = [] ∧
    releasedOf exSubmitted = [] ∧
    exSubmitted.escrows = [exE1] ∧
    exE1.status = EscrowStatus.held :=
  ⟨submit_answer_exState_eval, by decide, by decide, by decide, by decide⟩

/-- Helper: the element a `.head?` lookup returns belongs to the list. -/
theorem head?_some_mem {α : Type} {l : List α} {a : α} (h : l.head? = some a) :
    a ∈ l := by
  cases l with
  | nil => simp at h
  | cons b t =>
    simp only [List.head?_cons, Option.some.injEq] at h
    simp [h]

/-- Helper: a release with no matching held rows is a no-op returning false. -/
theorem release_escrow_of_no_held (s : State) (qid : String)
    (c : Option String) (now : ℤ)
    (h : s.escrows.filter
      (fun e => e.question_id == qid && e.status == EscrowStatus.held) = []) :
    release_escrow s qid c now = (false, s) := by
  unfold release_escrow
  rw [h]
  rfl

/-- Helper: after a release no held rows remain for the question. -/
theorem release_escrow_no_held (s : State) (qid : String)
    (c : Option String) (now : ℤ) :
    (release_escrow s qid c now).2.escrows.filter
      (fun e => e.question_id == qid && e.status == EscrowStatus.held) = [] := by
  unfold release_escrow
  by_cases hemp : (s.escrows.filter
      (fun e => e.question_id == qid && e.status == EscrowStatus.held)).isEmpty
  · rw [if_pos hemp]
    exact List.isEmpty_iff.mp hemp
  · rw [if_neg hemp]
    apply List.filter_eq_nil_iff.mpr
    intro x hx
    obtain ⟨e, he, rfl⟩ := List.mem_map.mp hx
    by_cases hc : ((s.escrows.filter
        (fun e => e.question_id == qid && e.status == EscrowStatus.held)).map
        (fun e => e.id)).contains e.id
    · rw [if_pos hc]
      simp
    · rw [if_neg hc]
      intro hpred
      apply hc
      have hmem : e ∈ s.escrows.filter
          (fun e => e.question_id == qid && e.status == EscrowStatus.held) :=
        List.mem_filter.mpr ⟨he, hpred⟩
      exact List.elem_eq_true_of_mem (List.mem_map_of_mem (fun e => e.id) hmem)

/-- Helper: refunding one row touches only profiles and escrows. -/
theorem refundOne_preserves (s : State) (e : EscrowEntry) (now : ℤ) :
    (refundOne s e now).answers = s.answers ∧
    (refundOne s e now).questions = s.questions ∧
    (refundOne s e now).votes = s.votes := by
  unfold refundOne
  cases firstProfile s e.citizen_id with
  | none => exact ⟨rfl, rfl, rfl⟩
  | some p => exact ⟨rfl, rfl, rfl⟩

/-- Helper: the inner refund loop touches only profiles and escrows. -/
theorem refundList_preserves (now : ℤ) (es : List EscrowEntry) : ∀ s : State,
    (refundList s es now).answers = s.answers ∧
    (refundList s es now).questions = s.questions ∧
    (refundList s es now).votes = s.votes := by
  induction es with
  | nil => intro s; exact ⟨rfl, rfl, rfl⟩
  | cons e es ih =>
    intro s
    have h1 := refundOne_preserves s e now
    have h2 := ih (refundOne s e now)
    unfold refundList at h2 ⊢
    rw [List.foldl_cons]
    exact ⟨h2.1.trans h1.1, h2.2.1.trans h1.2.1, h2.2.2.trans h1.2.2⟩

/-- Helper: a swept question with an answer is skipped entirely. -/
theorem sweepQuestion_answered (s : State) (qid : String) (now : ℤ)
    (h : ¬ (s.answers.filter (fun a => a.question_id == qid)).isEmpty = true) :
    sweepQuestion s qid now = (s, 0) := by
  unfold sweepQuestion
  rw [if_neg h]

/-- Helper: sweeping one unanswered question leaves its answers unchanged and
expires exactly the rows with its id. -/
theorem sweepQuestion_unanswered_shape (s : State) (qid : String) (now : ℤ)
    (h : (s.answers.filter (fun a => a.question_id == qid)).isEmpty = true) :
    (sweepQuestion s qid now).1.answers = s.answers ∧
    (sweepQuestion s qid now).1.questions = s.questions.map (fun q =>
      if q.id == qid then { q with status := QuestionStatus.expired } else q) := by
  unfold sweepQuestion markExpired
  rw [if_pos h]
  dsimp only
  have hp := refundList_preserves now (s.escrows.filter
    (fun e => e.question_id == qid && e.status == EscrowStatus.held)) s
  constructor
  · exact hp.1
  · rw [hp.2.1]

/-- Helper: the sweep loop never changes the answers table. -/
theorem sweepLoop_answers (now : ℤ) (qids : List String) : ∀ s : State,
    (sweepLoop s now qids).1.answers = s.answers := by
  induction qids with
  | nil => intro s; rfl
  | cons q0 rest ih =>
    intro s
    unfold sweepLoop
    dsimp only
    rw [ih (sweepQuestion s q0 now).1]
    by_cases h : (s.answers.filter (fun a => a.question_id == q0)).isEmpty = true
    · exact (sweepQuestion_unanswered_shape s q0 now h).1
    · rw [sweepQuestion_answered s q0 now h]

/-- Helper: after the sweep loop covers every open past-deadline question,
each one that is still open past its deadline has an answer. -/
theorem sweepLoop_resolves (now : ℤ) (qids : List String) : ∀ s : State,
    (∀ q ∈ s.questions, q.status = QuestionStatus.opened → q.deadline < now →
      (q.id ∈ qids ∨
        s.answers.filter (fun a => a.question_id == q.id) ≠ [])) →
    ∀ q ∈ (sweepLoop s now qids).1.questions,
      q.status = QuestionStatus.opened → q.deadline < now →
      (sweepLoop s now qids).1.answers.filter
        (fun a => a.question_id == q.id) ≠ [] := by
  induction qids with
  | nil =>
    intro s hcov q hq hopen hlate
    rcases hcov q hq hopen hlate with h | h
    · exact absurd h (List.not_mem_nil _)
    · exact h
  | cons q0 rest ih =>
    intro s hcov
    unfold sweepLoop
    dsimp only
    by_cases h : (s.answers.filter (fun a => a.question_id == q0)).isEmpty = true
    · apply ih (sweepQuestion s q0 now).1
      intro q hq hopen hlate
      obtain ⟨hans, hqs⟩ := sweepQuestion_unanswered_shape s q0 now h
      rw [hqs] at hq
      obtain ⟨r, hr, hrq⟩ := List.mem_map.mp hq
      by_cases hid : r.id == q0
      · rw [if_pos hid] at hrq
        rw [← hrq] at hopen
        exact absurd hopen (by simp)
      · rw [if_neg hid] at hrq
        subst hrq
        rcases hcov r hr hopen hlate with hin | hne
        · rcases List.mem_cons.mp hin with heq | hrest
          · exact absurd (by simpa using heq) (by simpa using hid)
          · rw [hans]
            exact Or.inl hrest
        · rw [hans]
          exact Or.inr hne
    · rw [sweepQuestion_answered s q0 now h]
      apply ih s
      intro q hq hopen hlate
      rcases hcov q hq hopen hlate with hin | hne
      · rcases List.mem_cons.mp hin with heq | hrest
        · right
          rw [heq]
          intro hnil
          rw [hnil] at h
          exact h rfl
        · exact Or.inl hrest
      · exact Or.inr hne

/-- Helper: a sweep pass over question ids that all have answers is a no-op. -/
theorem sweepLoop_noop (now : ℤ) (qids : List String) (s : State)
    (hall : ∀ qid ∈ qids,
      ¬ (s.answers.filter (fun a => a.question_id == qid)).isEmpty = true) :
    sweepLoop s now qids = (s, 0) := by
  induction qids with
  | nil => rfl
  | cons q0 rest ih =>
    have hstep : sweepQuestion s q0 now = (s, 0) :=
      sweepQuestion_answered s q0 now (hall q0 (List.mem_cons_self q0 rest))
    have hrest : sweepLoop s now rest = (s, 0) :=
      ih (fun qid hqid => hall qid (List.mem_cons_of_mem q0 hqid))
    unfold sweepLoop
    simp only [hstep, hrest]

/-- C3: Release and the refund sweep are idempotent — a second `release_escrow`
for the same question right after a first one returns false and leaves the
store exactly as it was (there are no held rows left), and a second run of
`refund_expired_escrows` right after a first one refunds nothing and returns
the store unchanged with count 0. -/
theorem release_and_refund_idempotent (s : State) (qid : String)
    (c c' : Option String) (now now' n2 : ℤ) :
    release_escrow (release_escrow s qid c now).2 qid c' now' =
      (false, (release_escrow s qid c now).2) ∧
    refund_expired_escrows (refund_expired_escrows s n2).1 n2 =
      ((refund_expired_escrows s n2).1, 0) := by
  constructor
  · exact release_escrow_of_no_held _ qid c' now'
      (release_escrow_no_held s qid c now)
  · unfold refund_expired_escrows
    apply sweepLoop_noop
    intro qid0 hqid0
    obtain ⟨q, hqmem, hqid⟩ := List.mem_map.mp hqid0
    obtain ⟨hqin, hcond⟩ := List.mem_filter.mp hqmem
    have hoc : q.status = QuestionStatus.opened ∧ q.deadline < n2 := by
      simpa using hcond
    have hcov : ∀ r ∈ s.questions, r.status = QuestionStatus.opened →
        r.deadline < n2 →
        (r.id ∈ (s.questions.filter (fun q =>
            q.status == QuestionStatus.opened && decide (q.deadline < n2))).map
            (fun q => q.id) ∨
          s.answers.filter (fun a => a.question_id == r.id) ≠ []) := by
      intro r hr hro hrl
      left
      exact List.mem_map_of_mem _ (List.mem_filter.mpr ⟨hr, by simp [hro, hrl]⟩)
    have hne := sweepLoop_resolves n2 _ s hcov q hqin hoc.1 hoc.2
    intro hempty
    rw [hqid] at hne
    exact hne (List.isEmpty_iff.mp hempty)

/-- Helper: two stores with equal tables are equal. -/
theorem State_eq_of_fields {a b : State} (h1 : a.profiles = b.profiles)
    (h2 : a.questions = b.questions) (h3 : a.answers = b.answers)
    (h4 : a.votes = b.votes) (h5 : a.escrows = b.escrows) : a = b := by
  cases a
  cases b
  simp_all

/-- Helper: the inner refund loop credits every staker the sum of their
snapshotted amounts and marks exactly the snapshotted rows refunded. -/
theorem refundList_eq (now : ℤ) (es : List EscrowEntry) : ∀ s : State,
    (s.profiles.map (fun p => p.id)).Nodup →
    (es.map (fun e => e.id)).Nodup →
    (∀ e ∈ es, ∃ p ∈ s.profiles, p.id = e.citizen_id) →
    refundList s es now = { s with
      profiles := s.profiles.map (fun p =>
        { p with civic_points := p.civic_points +
            ((es.filter (fun e => e.citizen_id == p.id)).map
              (fun e => e.amount)).sum })
    , escrows := s.escrows.map (fun r =>
        if (es.map (fun e => e.id)).contains r.id then
          { r with status := EscrowStatus.refunded, released_at := some now }
        else r) } := by
  induction es with
  | nil =>
    intro s _ _ _
    apply State_eq_of_fields <;> try rfl
    · show s.profiles = _
      have hfun : (fun p : Profile =>
          { p with civic_points := p.civic_points +
              ((([] : List EscrowEntry).filter
                (fun e => e.citizen_id == p.id)).map (fun e => e.amount)).sum }) =
          fun p => p := by
        funext p
        simp
      rw [hfun, List.map_id']
    · show s.escrows = _
      have hfun : (fun r : EscrowEntry =>
          if ((([] : List EscrowEntry)).map (fun e => e.id)).contains r.id then
            { r with status := EscrowStatus.refunded, released_at := some now }
          else r) = fun r => r := by
        funext r
        simp [List.contains]
      rw [hfun, List.map_id']
  | cons e es ih =>
    intro s hpn hen hfk
    obtain ⟨p0, hp0mem, hp0id⟩ := hfk e (List.mem_cons_self e es)
    rcases hh : (s.profiles.filter (fun p => p.id == e.citizen_id)).head? with - | pf
    · exfalso
      have hmem : p0 ∈ s.profiles.filter (fun p => p.id == e.citizen_id) :=
        List.mem_filter.mpr ⟨hp0mem, by simp [hp0id]⟩
      have hnil : s.profiles.filter (fun p => p.id == e.citizen_id) = [] :=
        List.head?_eq_none_iff.mp hh
      rw [hnil] at hmem
      exact absurd hmem (List.not_mem_nil p0)
    · have hpf : ∀ r ∈ s.profiles, r.id = e.citizen_id → r = pf :=
        head_filter_unique (fun x => x.id) s.profiles hpn e.citizen_id pf hh
      have hpfid : pf.id = e.citizen_id := by
        have : pf ∈ s.profiles.filter (fun p => p.id == e.citizen_id) :=
          head?_some_mem hh
        simpa using (List.mem_filter.mp this).2
      have hstep : refundOne s e now = { s with
          profiles := s.profiles.map (fun r =>
            if r.id == e.citizen_id then
              { r with civic_points := pf.civic_points + e.amount } else r)
        , escrows := s.escrows.map (fun r =>
            if r.id == e.id then
              { r with status := EscrowStatus.refunded, released_at := some now }
            else r) } := by
        unfold refundOne firstProfile
        rw [hh]
      have hlist : refundList s (e :: es) now =
          refundList (refundOne s e now) es now := by
        unfold refundList
        rw [List.foldl_cons]
      set s1 : State := { s with
          profiles := s.profiles.map (fun r =>
            if r.id == e.citizen_id then
              { r with civic_points := pf.civic_points + e.amount } else r)
        , escrows := s.escrows.map (fun r =>
            if r.id == e.id then
              { r with status := EscrowStatus.refunded, released_at := some now }
            else r) } with hs1
      have hids : s1.profiles.map (fun p => p.id) = s.profiles.map (fun p => p.id) := by
        rw [hs1]
        dsimp only
        rw [List.map_map]
        apply List.map_congr_left
        intro r _
        by_cases hid : r.id == e.citizen_id
        · simp [Function.comp, hid]
        · simp [Function.comp, hid]
      have hih := ih s1 (by rw [hids]; exact hpn) (by
          simp only [List.map_cons, List.nodup_cons] at hen
          exact hen.2)
        (by
          intro x hx
          obtain ⟨p, hpm, hpid⟩ := hfk x (List.mem_cons_of_mem e hx)
          refine ⟨if p.id == e.citizen_id then
              { p with civic_points := pf.civic_points + e.amount } else p, ?_, ?_⟩
          · exact List.mem_map_of_mem _ hpm
          · have hsame : (if p.id == e.citizen_id then
                { p with civic_points := pf.civic_points + e.amount } else p).id =
                p.id := by
              by_cases hc : p.id == e.citizen_id
              · rw [if_pos hc]
              · rw [if_neg hc]
            rw [hsame]
            exact hpid)
      rw [hlist, hstep, hih]
      apply State_eq_of_fields <;> try rfl
      · show (s.profiles.map _).map _ = s.profiles.map _
        rw [List.map_map]
        apply List.map_congr_left
        intro r hr
        by_cases hid : r.id = e.citizen_id
        · have hrpf : pf = r := (hpf r hr hid).symm
          have hbeq1 : (r.id == e.citizen_id) = true := by simp [hid]
          have hbeq2 : (e.citizen_id == r.id) = true := by simp [hid]
          simp only [Function.comp_apply, hbeq1, if_true, List.filter_cons,
            hbeq2, List.map_cons, List.sum_cons, hrpf]
          simp [add_assoc]
        · have hbeq1 : (r.id == e.citizen_id) = false := by simp [hid]
          have hbeq2 : (e.citizen_id == r.id) = false := by
            simp only [beq_eq_false_iff_ne, ne_eq]
            exact fun h => hid h.symm
          simp [Function.comp, hbeq1, hbeq2, List.filter_cons]
      · show (s.escrows.map _).map _ = s.escrows.map _
        rw [List.map_map]
        apply List.map_congr_left
        intro r _
        by_cases hid : r.id = e.id
        · have hbeq : (r.id == e.id) = true := by simp [hid]
          simp [Function.comp, hbeq, List.contains_cons, hid]
        · have hbeq : (r.id == e.id) = false := by simp [hid]
          simp [Function.comp, hbeq, List.contains_cons, hid]

/-- Helper: one unanswered swept question refunds exactly its held rows,
credits each staker the matching amounts, expires the question rows, and
reports the number of refunded rows. -/
theorem sweepQuestion_eq (s : State) (qid : String) (now : ℤ)
    (hans : (s.answers.filter (fun a => a.question_id == qid)).isEmpty = true)
    (hpn : (s.profiles.map (fun p => p.id)).Nodup)
    (hen : (s.escrows.map (fun e => e.id)).Nodup)
    (hfk : ∀ e ∈ s.escrows, ∃ p ∈ s.profiles, p.id = e.citizen_id) :
    sweepQuestion s qid now = ({ s with
      profiles := s.profiles.map (fun p =>
        { p with civic_points := p.civic_points +
            ((s.escrows.filter (fun e =>
              e.question_id == qid && e.status == EscrowStatus.held &&
                e.citizen_id == p.id)).map (fun e => e.amount)).sum })
    , escrows := s.escrows.map (fun r =>
        if r.question_id == qid && r.status == EscrowStatus.held then
          { r with status := EscrowStatus.refunded, released_at := some now }
        else r)
    , questions := s.questions.map (fun q =>
        if q.id == qid then { q with status := QuestionStatus.expired } else q) },
    (s.escrows.filter (fun e =>
      e.question_id == qid && e.status == EscrowStatus.held)).length) := by
  unfold sweepQuestion
  rw [if_pos hans]
  dsimp only
  have heldn : ((s.escrows.filter (fun e =>
      e.question_id == qid && e.status == EscrowStatus.held)).map
      (fun e => e.id)).Nodup :=
    ((List.filter_sublist s.escrows).map (fun e => e.id)).nodup hen
  have heldfk : ∀ e ∈ s.escrows.filter (fun e =>
      e.question_id == qid && e.status == EscrowStatus.held),
      ∃ p ∈ s.profiles, p.id = e.citizen_id :=
    fun e he => hfk e (List.mem_filter.mp he).1
  rw [refundList_eq now _ s hpn heldn heldfk]
  unfold markExpired
  dsimp only
  refine Prod.ext ?_ rfl
  apply State_eq_of_fields
  · dsimp only
    apply List.map_congr_left
    intro p _
    have hfil : (s.escrows.filter (fun e =>
        e.question_id == qid && e.status == EscrowStatus.held)).filter
        (fun e => e.citizen_id == p.id) =
        s.escrows.filter (fun e =>
          e.question_id == qid && e.status == EscrowStatus.held &&
            e.citizen_id == p.id) := by
      rw [List.filter_filter]
      apply List.filter_congr
      intro e _
      cases e.question_id == qid <;> cases e.status == EscrowStatus.held <;>
        cases e.citizen_id == p.id <;> rfl
    rw [hfil]
  · rfl
  · rfl
  · rfl
  · dsimp only
    apply List.map_congr_left
    intro r hr
    by_cases hc : (r.question_id == qid && r.status == EscrowStatus.held) = true
    · have hmem : r ∈ s.escrows.filter (fun e =>
          e.question_id == qid && e.status == EscrowStatus.held) :=
        List.mem_filter.mpr ⟨hr, hc⟩
      have hcont : (((s.escrows.filter (fun e =>
          e.question_id == qid && e.status == EscrowStatus.held)).map
          (fun e => e.id)).contains r.id) = true :=
        List.elem_eq_true_of_mem (List.mem_map_of_mem (fun e => e.id) hmem)
      rw [if_pos hcont, if_pos hc]
    · have hcont : (((s.escrows.filter (fun e =>
          e.question_id == qid && e.status == EscrowStatus.held)).map
          (fun e => e.id)).contains r.id) = false := by
        by_contra hne
        have htrue : (((s.escrows.filter (fun e =>
            e.question_id == qid && e.status == EscrowStatus.held)).map
            (fun e => e.id)).contains r.id) = true := by
          cases hcase : (((s.escrows.filter (fun e =>
              e.question_id == qid && e.status == EscrowStatus.held)).map
              (fun e => e.id)).contains r.id)
          · exact absurd hcase hne
          · rfl
        obtain ⟨x, hxmem, hxid⟩ := List.mem_map.mp (List.elem_iff.mp htrue)
        have hx : x = r :=
          List.inj_on_of_nodup_map hen
            ((List.filter_sublist s.escrows).mem hxmem) hr hxid
        rw [hx] at hxmem
        exact hc (List.mem_filter.mp hxmem).2
      rw [if_neg (by rw [hcont]; exact Bool.false_ne_true), if_neg hc]

/-- Helper: the length of a filter by a disjunction of disjoint conditions
splits into a sum of lengths. -/
theorem length_filter_or {α : Type} (l : List α) (P Q : α → Bool)
    (hd : ∀ x ∈ l, ¬(P x = true ∧ Q x = true)) :
    (l.filter (fun x => P x || Q x)).length =
      (l.filter P).length + (l.filter Q).length := by
  induction l with
  | nil => rfl
  | cons x xs ih =>
    have hx := hd x (List.mem_cons_self x xs)
    have ih' := ih (fun y hy => hd y (List.mem_cons_of_mem x hy))
    cases hP : P x <;> cases hQ : Q x
    · simp [List.filter_cons, hP, hQ, ih']
    · simp [List.filter_cons, hP, hQ, ih']
      omega
    · simp [List.filter_cons, hP, hQ, ih']
      omega
    · exact absurd ⟨hP, hQ⟩ hx

/-- Helper: the sum of amounts over a filter by a disjunction of disjoint
conditions splits into a sum of sums. -/
theorem sum_filter_or (l : List EscrowEntry) (P Q : EscrowEntry → Bool)
    (hd : ∀ x ∈ l, ¬(P x = true ∧ Q x = true)) :
    ((l.filter (fun x => P x || Q x)).map (fun e => e.amount)).sum =
      ((l.filter P).map (fun e => e.amount)).sum +
        ((l.filter Q).map (fun e => e.amount)).sum := by
  induction l with
  | nil => rfl
  | cons x xs ih =>
    have hx := hd x (List.mem_cons_self x xs)
    have ih' := ih (fun y hy => hd y (List.mem_cons_of_mem x hy))
    cases hP : P x <;> cases hQ : Q x
    · simp [List.filter_cons, hP, hQ, ih']
    · simp [List.filter_cons, hP, hQ, ih']
      ring
    · simp [List.filter_cons, hP, hQ, ih']
      ring
    · exact absurd ⟨hP, hQ⟩ hx

/-- Helper: one pass of the sweep loop over distinct question ids refunds
exactly the held rows of the unanswered swept questions, credits each staker
accordingly, expires exactly the unanswered swept questions, and returns the
number of refunded rows. -/
theorem sweepLoop_eq (now : ℤ) (qids : List String) : ∀ s : State,
    qids.Nodup →
    (s.profiles.map (fun p => p.id)).Nodup →
    (s.escrows.map (fun e => e.id)).Nodup →
    (∀ e ∈ s.escrows, ∃ p ∈ s.profiles, p.id = e.citizen_id) →
    sweepLoop s now qids = ({ s with
      profiles := s.profiles.map (fun p =>
        { p with civic_points := p.civic_points +
            ((s.escrows.filter (fun e =>
              refundCond s.answers qids e && e.citizen_id == p.id)).map
              (fun e => e.amount)).sum })
    , escrows := s.escrows.map (fun r =>
        if refundCond s.answers qids r then
          { r with status := EscrowStatus.refunded, released_at := some now }
        else r)
    , questions := s.questions.map (fun q =>
        if expireCond s.answers qids q then
          { q with status := QuestionStatus.expired } else q) },
    (s.escrows.filter (fun e => refundCond s.answers qids e)).length) := by
  induction qids with
  | nil =>
    intro s _ _ _ _
    have hrc : ∀ e : EscrowEntry, refundCond s.answers [] e = false := by
      intro e
      unfold refundCond
      cases e.status == EscrowStatus.held <;> rfl
    have hec : ∀ q : Question, expireCond s.answers [] q = false := by
      intro q
      unfold expireCond
      rfl
    have hrun : sweepLoop s now [] = (s, 0) := rfl
    rw [hrun]
    refine Prod.ext ?_ ?_
    · apply State_eq_of_fields <;> dsimp only
      · have hfun : (fun p : Profile =>
            { p with civic_points := p.civic_points +
                ((s.escrows.filter (fun e =>
                  refundCond s.answers [] e && e.citizen_id == p.id)).map
                  (fun e => e.amount)).sum }) = fun p => p := by
          funext p
          have : (fun e : EscrowEntry =>
              refundCond s.answers [] e && e.citizen_id == p.id) =
              fun e => false := by
            funext e
            rw [hrc e]
            rfl
          rw [this]
          simp
        rw [hfun, List.map_id']
      · have hfun : (fun q : Question =>
            if expireCond s.answers [] q then
              { q with status := QuestionStatus.expired } else q) =
            fun q => q := by
          funext q
          rw [hec q]
          rfl
        rw [hfun, List.map_id']
      · have hfun : (fun r : EscrowEntry =>
            if refundCond s.answers [] r then
              { r with status := EscrowStatus.refunded, released_at := some now }
            else r) = fun r => r := by
          funext r
          rw [hrc r]
          rfl
        rw [hfun, List.map_id']
    · show (0 : ℕ) = (s.escrows.filter (fun e => refundCond s.answers [] e)).length
      have : (fun e : EscrowEntry => refundCond s.answers [] e) =
          fun e => false := by
        funext e
        exact hrc e
      rw [this, List.filter_false]
      rfl
  | cons q0 rest ih =>
    intro s hqn hpn hen hfk
    have hq0nin : q0 ∉ rest := (List.nodup_cons.mp hqn).1
    have hrestn : rest.Nodup := (List.nodup_cons.mp hqn).2
    have hcr : rest.contains q0 = false := by
      cases hc : rest.contains q0
      · rfl
      · exact absurd (List.elem_iff.mp hc) hq0nin
    unfold sweepLoop
    dsimp only
    by_cases hans : (s.answers.filter (fun a => a.question_id == q0)).isEmpty = true
    · -- q0 unanswered: refund its held rows, expire it, recurse
      have hsplitE : ∀ e : EscrowEntry, refundCond s.answers (q0 :: rest) e =
          ((e.question_id == q0 && e.status == EscrowStatus.held) ||
            refundCond s.answers rest e) := by
        intro e
        unfold refundCond
        by_cases hq : e.question_id = q0
        · rw [hq]
          simp only [List.contains_cons, beq_self_eq_true, Bool.true_or, hans,
            hcr, Bool.and_true, Bool.and_false, Bool.false_and]
          cases e.status == EscrowStatus.held <;> rfl
        · have hb : (e.question_id == q0) = false := by simp [hq]
          simp only [List.contains_cons, hb, Bool.false_or, Bool.false_and]
      have hsplitQ : ∀ q : Question, expireCond s.answers (q0 :: rest) q =
          ((q.id == q0) || expireCond s.answers rest q) := by
        intro q
        unfold expireCond
        by_cases hq : q.id = q0
        · rw [hq]
          simp only [List.contains_cons, beq_self_eq_true, Bool.true_or,
            Bool.true_and, hans, hcr, Bool.false_and]
        · have hb : (q.id == q0) = false := by simp [hq]
          simp only [List.contains_cons, hb, Bool.false_or]
      have hdisj : ∀ e ∈ s.escrows,
          ¬((e.question_id == q0 && e.status == EscrowStatus.held) = true ∧
            refundCond s.answers rest e = true) := by
        intro e _ ⟨hA, hB⟩
        have hA' := hA
        simp only [Bool.and_eq_true, beq_iff_eq] at hA'
        unfold refundCond at hB
        rw [hA'.1, hcr] at hB
        simp at hB
      rw [sweepQuestion_eq s q0 now hans hpn hen hfk]
      dsimp only
      set S1 : State := { s with
        profiles := s.profiles.map (fun p =>
          { p with civic_points := p.civic_points +
              ((s.escrows.filter (fun e =>
                e.question_id == q0 && e.status == EscrowStatus.held &&
                  e.citizen_id == p.id)).map (fun e => e.amount)).sum })
      , escrows := s.escrows.map (fun r =>
          if r.question_id == q0 && r.status == EscrowStatus.held then
            { r with status := EscrowStatus.refunded, released_at := some now }
          else r)
      , questions := s.questions.map (fun q =>
          if q.id == q0 then { q with status := QuestionStatus.expired } else q) }
        with hS1
      have hpn1 : (S1.profiles.map (fun p => p.id)).Nodup := by
        rw [hS1]
        dsimp only
        rw [List.map_map]
        have hcomp : ((fun p : Profile => p.id) ∘ (fun p : Profile =>
            { p with civic_points := p.civic_points +
                ((s.escrows.filter (fun e =>
                  e.question_id == q0 && e.status == EscrowStatus.held &&
                    e.citizen_id == p.id)).map (fun e => e.amount)).sum })) =
            fun p : Profile => p.id := by
          funext p
          rfl
        rw [hcomp]
        exact hpn
      have hen1 : (S1.escrows.map (fun e => e.id)).Nodup := by
        rw [hS1]
        dsimp only
        rw [List.map_map]
        have hcomp : ((fun e : EscrowEntry => e.id) ∘ (fun r : EscrowEntry =>
            if r.question_id == q0 && r.status == EscrowStatus.held then
              { r with status := EscrowStatus.refunded, released_at := some now }
            else r)) = fun e : EscrowEntry => e.id := by
          funext r
          by_cases hm : (r.question_id == q0 && r.status == EscrowStatus.held) = true
          · simp [Function.comp, hm]
          · simp [Function.comp, hm]
        rw [hcomp]
        exact hen
      have hfk1 : ∀ e ∈ S1.escrows, ∃ p ∈ S1.profiles, p.id = e.citizen_id := by
        rw [hS1]
        dsimp only
        intro e he
        obtain ⟨r, hr, hre⟩ := List.mem_map.mp he
        obtain ⟨p, hpm, hpid⟩ := hfk r hr
        refine ⟨{ p with civic_points := p.civic_points +
            ((s.escrows.filter (fun e =>
              e.question_id == q0 && e.status == EscrowStatus.held &&
                e.citizen_id == p.id)).map (fun e => e.amount)).sum },
          List.mem_map_of_mem _ hpm, ?_⟩
        have hcit : e.citizen_id = r.citizen_id := by
          rw [← hre]
          by_cases hm : (r.question_id == q0 && r.status == EscrowStatus.held) = true
          · rw [if_pos hm]
          · rw [if_neg hm]
        rw [hcit]
        exact hpid
      have hihS := ih S1 hrestn hpn1 hen1 hfk1
      rw [hihS, hS1]
      dsimp only
      have hGcond : ∀ r : EscrowEntry, refundCond s.answers rest
          (if r.question_id == q0 && r.status == EscrowStatus.held then
            { r with status := EscrowStatus.refunded, released_at := some now }
          else r) = refundCond s.answers rest r := by
        intro r
        by_cases hm : (r.question_id == q0 && r.status == EscrowStatus.held) = true
        · rw [if_pos hm]
          have hm' := hm
          simp only [Bool.and_eq_true, beq_iff_eq] at hm'
          unfold refundCond
          rw [hm'.1, hcr]
          simp [hm'.2]
        · rw [if_neg hm]
      have hGcit : ∀ r : EscrowEntry,
          (if r.question_id == q0 && r.status == EscrowStatus.held then
            { r with status := EscrowStatus.refunded, released_at := some now }
          else r).citizen_id = r.citizen_id := by
        intro r
        by_cases hm : (r.question_id == q0 && r.status == EscrowStatus.held) = true
        · rw [if_pos hm]
        · rw [if_neg hm]
      have hGamt : ∀ r : EscrowEntry,
          (if r.question_id == q0 && r.status == EscrowStatus.held then
            { r with status := EscrowStatus.refunded, released_at := some now }
          else r).amount = r.amount := by
        intro r
        by_cases hm : (r.question_id == q0 && r.status == EscrowStatus.held) = true
        · rw [if_pos hm]
        · rw [if_neg hm]
      have hSmap : ∀ pid : String,
          (((s.escrows.map (fun r =>
            if r.question_id == q0 && r.status == EscrowStatus.held then
              { r with status := EscrowStatus.refunded, released_at := some now }
            else r)).filter (fun e =>
              refundCond s.answers rest e && e.citizen_id == pid)).map
            (fun e => e.amount)).sum =
          ((s.escrows.filter (fun e =>
            refundCond s.answers rest e && e.citizen_id == pid)).map
            (fun e => e.amount)).sum := by
        intro pid
        rw [List.filter_map, List.map_map]
        have h1 : (s.escrows.filter ((fun e =>
            refundCond s.answers rest e && e.citizen_id == pid) ∘ (fun r =>
            if r.question_id == q0 && r.status == EscrowStatus.held then
              { r with status := EscrowStatus.refunded, released_at := some now }
            else r))) = s.escrows.filter (fun e =>
              refundCond s.answers rest e && e.citizen_id == pid) := by
          apply List.filter_congr
          intro e _
          show (refundCond s.answers rest _ && _) = _
          rw [hGcond e, hGcit e]
        rw [h1]
        apply congrArg
        apply List.map_congr_left
        intro e _
        show (if e.question_id == q0 && e.status == EscrowStatus.held then
            { e with status := EscrowStatus.refunded, released_at := some now }
          else e).amount = e.amount
        exact hGamt e
      have hlen : ((s.escrows.map (fun r =>
          if r.question_id == q0 && r.status == EscrowStatus.held then
            { r with status := EscrowStatus.refunded, released_at := some now }
          else r)).filter (fun e => refundCond s.answers rest e)).length =
          (s.escrows.filter (fun e => refundCond s.answers rest e)).length := by
        rw [List.filter_map]
        rw [List.length_map]
        apply congrArg
        apply List.filter_congr
        intro e _
        exact hGcond e
      refine Prod.ext ?_ ?_
      · apply State_eq_of_fields <;> dsimp only
        · rw [List.map_map]
          apply List.map_congr_left
          intro p _
          dsimp only [Function.comp]
          have hsum : ((s.escrows.filter (fun e =>
              refundCond s.answers (q0 :: rest) e && e.citizen_id == p.id)).map
              (fun e => e.amount)).sum =
              ((s.escrows.filter (fun e =>
                (e.question_id == q0 && e.status == EscrowStatus.held) &&
                  e.citizen_id == p.id)).map (fun e => e.amount)).sum +
              ((s.escrows.filter (fun e =>
                refundCond s.answers rest e && e.citizen_id == p.id)).map
                (fun e => e.amount)).sum := by
            have hcfil : (s.escrows.filter (fun e =>
                refundCond s.answers (q0 :: rest) e && e.citizen_id == p.id)) =
                s.escrows.filter (fun e =>
                  ((e.question_id == q0 && e.status == EscrowStatus.held) &&
                    e.citizen_id == p.id) ||
                  (refundCond s.answers rest e && e.citizen_id == p.id)) := by
              apply List.filter_congr
              intro e _
              rw [hsplitE e]
              cases e.question_id == q0 && e.status == EscrowStatus.held <;>
                cases refundCond s.answers rest e <;>
                cases e.citizen_id == p.id <;> rfl
            rw [hcfil]
            apply sum_filter_or
            intro x hx hAB
            obtain ⟨hA, hB⟩ := hAB
            simp only [Bool.and_eq_true] at hA hB
            refine hdisj x hx ⟨?_, hB.1⟩
            simp [hA.1.1, hA.1.2]
          have hfirst : ((s.escrows.filter (fun e =>
              (e.question_id == q0 && e.status == EscrowStatus.held) &&
                e.citizen_id == p.id)).map (fun e => e.amount)).sum =
              ((s.escrows.filter (fun e =>
                e.question_id == q0 && e.status == EscrowStatus.held &&
                  e.citizen_id == p.id)).map (fun e => e.amount)).sum := by
            apply congrArg
            apply congrArg
            apply List.filter_congr
            intro e _
            cases e.question_id == q0 <;> cases e.status == EscrowStatus.held <;>
              cases e.citizen_id == p.id <;> rfl
          show Profile.mk _ _ _ = Profile.mk _ _ _
          congr 1
          rw [hSmap p.id, hsum, hfirst, add_assoc]
        · rw [List.map_map]
          apply List.map_congr_left
          intro q _
          dsimp only [Function.comp]
          by_cases hd : (q.id == q0) = true
          · rw [if_pos hd]
            have hid : ({ q with status := QuestionStatus.expired } : Question).id
                = q.id := rfl
            have hcond : expireCond s.answers rest
                ({ q with status := QuestionStatus.expired } : Question) = false := by
              unfold expireCond
              rw [hid]
              have hq : q.id = q0 := by simpa using hd
              rw [hq, hcr]
              rfl
            rw [hcond]
            have htgt : expireCond s.answers (q0 :: rest) q = true := by
              rw [hsplitQ q, hd]
              rfl
            rw [if_neg (by simp), htgt, if_pos rfl]
          · rw [if_neg hd]
            rw [hsplitQ q]
            have hdf : (q.id == q0) = false := by
              cases hc : (q.id == q0)
              · rfl
              · exact absurd hc hd
            rw [hdf]
            rw [Bool.false_or]
        · rw [List.map_map]
          apply List.map_congr_left
          intro r _
          dsimp only [Function.comp]
          by_cases hm : (r.question_id == q0 && r.status == EscrowStatus.held) = true
          · rw [if_pos hm]
            have hcond : refundCond s.answers rest
                { r with status := EscrowStatus.refunded, released_at := some now }
                = false := by
              have hg := hGcond r
              rw [if_pos hm] at hg
              rw [hg]
              have hm' := hm
              simp only [Bool.and_eq_true, beq_iff_eq] at hm'
              unfold refundCond
              rw [hm'.1, hcr]
              simp
            rw [hcond]
            have htgt : refundCond s.answers (q0 :: rest) r = true := by
              rw [hsplitE r, hm]
              rfl
            rw [if_neg (by simp), htgt, if_pos rfl]
          · rw [if_neg hm]
            rw [hsplitE r]
            have hmf : (r.question_id == q0 && r.status == EscrowStatus.held) = false := by
              cases hc : (r.question_id == q0 && r.status == EscrowStatus.held)
              · rfl
              · exact absurd hc hm
            rw [hmf]
            rw [Bool.false_or]
      · show _ + _ = _
        rw [hlen]
        have hcfil2 : (s.escrows.filter (fun e =>
            refundCond s.answers (q0 :: rest) e)) =
            s.escrows.filter (fun e =>
              (e.question_id == q0 && e.status == EscrowStatus.held) ||
                refundCond s.answers rest e) := by
          apply List.filter_congr
          intro e _
          exact hsplitE e
        rw [hcfil2]
        rw [length_filter_or s.escrows _ _ hdisj]
    · -- q0 answered: skipped, recurse on the same store
      rw [sweepQuestion_answered s q0 now hans]
      dsimp only
      rw [ih s hrestn hpn hen hfk]
      have hansf : (s.answers.filter (fun a => a.question_id == q0)).isEmpty = false := by
        cases hcase : (s.answers.filter (fun a => a.question_id == q0)).isEmpty
        · rfl
        · exact absurd hcase hans
      have hcondE : ∀ e : EscrowEntry, refundCond s.answers rest e =
          refundCond s.answers (q0 :: rest) e := by
        intro e
        unfold refundCond
        by_cases hq : e.question_id = q0
        · rw [hq]
          simp only [List.contains_cons, beq_self_eq_true, Bool.true_or, hcr,
            hansf, Bool.and_false]
        · have hb : (e.question_id == q0) = false := by simp [hq]
          simp only [List.contains_cons, hb, Bool.false_or]
      have hcondQ : ∀ q : Question, expireCond s.answers rest q =
          expireCond s.answers (q0 :: rest) q := by
        intro q
        unfold expireCond
        by_cases hq : q.id = q0
        · rw [hq]
          simp only [List.contains_cons, beq_self_eq_true, Bool.true_or, hcr,
            hansf, Bool.and_false, Bool.false_and]
        · have hb : (q.id == q0) = false := by simp [hq]
          simp only [List.contains_cons, hb, Bool.false_or]
      simp only [hcondE, hcondQ]
      refine Prod.ext ?_ ?_
      · rfl
      · dsimp only
        omega

/-- C9: the expiry sweep visits exactly the still-open questions whose
deadline has passed; among the escrow rows, exactly the held rows of swept
questions without an answer are refunded — each credited in full to its
staking citizen's balance and marked refunded — exactly the unanswered swept
questions are marked expired (answered ones are skipped with their status
and escrow untouched), and the returned count is the total number of
refunded rows. -/
theorem sweep_spec (s : State) (now : ℤ)
    (hqn : (s.questions.map (fun q => q.id)).Nodup)
    (hpn : (s.profiles.map (fun p => p.id)).Nodup)
    (hen : (s.escrows.map (fun e => e.id)).Nodup)
    (hfk : ∀ e ∈ s.escrows, ∃ p ∈ s.profiles, p.id = e.citizen_id) :
    refund_expired_escrows s now = ({ s with
      profiles := s.profiles.map (fun p =>
        { p with civic_points := p.civic_points +
            ((s.escrows.filter (fun e =>
              refundCond s.answers
                ((s.questions.filter (fun q =>
                  q.status == QuestionStatus.opened &&
                    decide (q.deadline < now))).map (fun q => q.id)) e &&
                e.citizen_id == p.id)).map (fun e => e.amount)).sum })
    , escrows := s.escrows.map (fun r =>
        if refundCond s.answers
            ((s.questions.filter (fun q =>
              q.status == QuestionStatus.opened &&
                decide (q.deadline < now))).map (fun q => q.id)) r then
          { r with status := EscrowStatus.refunded, released_at := some now }
        else r)
    , questions := s.questions.map (fun q =>
        if expireCond s.answers
            ((s.questions.filter (fun q =>
              q.status == QuestionStatus.opened &&
                decide (q.deadline < now))).map (fun q => q.id)) q then
          { q with status := QuestionStatus.expired } else q) },
    (s.escrows.filter (fun e =>
      refundCond s.answers
        ((s.questions.filter (fun q =>
          q.status == QuestionStatus.opened &&
            decide (q.deadline < now))).map (fun q => q.id)) e)).length) := by
  unfold refund_expired_escrows
  have hseln : ((s.questions.filter (fun q =>
      q.status == QuestionStatus.opened && decide (q.deadline < now))).map
      (fun q => q.id)).Nodup :=
    ((List.filter_sublist s.questions).map (fun q => q.id)).nodup hqn
  exact sweepLoop_eq now _ s hseln hpn hen hfk

/-- Witness for C9: the spec scenario — a question past its deadline with no
answer and one held stake of 30 — instantiates the sweep characterization at
the sample store with all hypotheses discharged. -/
theorem sweep_spec_witness :
    ((exState.questions.map (fun q => q.id)).Nodup ∧
      (exState.profiles.map (fun p => p.id)).Nodup ∧
      (exState.escrows.map (fun e => e.id)).Nodup ∧
      (∀ e ∈ exState.escrows, ∃ p ∈ exState.profiles, p.id = e.citizen_id)) ∧
    refund_expired_escrows exState 200 = ({ exState with
      profiles := exState.profiles.map (fun p =>
        { p with civic_points := p.civic_points +
            ((exState.escrows.filter (fun e =>
              refundCond exState.answers
                ((exState.questions.filter (fun q =>
                  q.status == QuestionStatus.opened &&
                    decide (q.deadline < 200))).map (fun q => q.id)) e &&
                e.citizen_id == p.id)).map (fun e => e.amount)).sum })
    , escrows := exState.escrows.map (fun r =>
        if refundCond exState.answers
            ((exState.questions.filter (fun q =>
              q.status == QuestionStatus.opened &&
                decide (q.deadline < 200))).map (fun q => q.id)) r then
          { r with status := EscrowStatus.refunded, released_at := some 200 }
        else r)
    , questions := exState.questions.map (fun q =>
        if expireCond exState.answers
            ((exState.questions.filter (fun q =>
              q.status == QuestionStatus.opened &&
                decide (q.deadline < 200))).map (fun q => q.id)) q then
          { q with status := QuestionStatus.expired } else q) },
    (exState.escrows.filter (fun e =>
      refundCond exState.answers
        ((exState.questions.filter (fun q =>
          q.status == QuestionStatus.opened &&
            decide (q.deadline < 200))).map (fun q => q.id)) e)).length) :=
  ⟨⟨by decide, by decide, by decide, by decide⟩,
    sweep_spec exState 200 (by decide) (by decide) (by decide) (by decide)⟩
